import Mathlib

/-!
# Verification of the Kaibigan envelope-budgeting engine

Shallow embedding of the Sahod envelope-budgeting engine and the recurring
transaction poster (src/routers/sahod.py and src/routers/pera.py), together
with proofs and refutations of the specified properties.

Dates are modelled as (year, month, day) triples; `Date.key` linearises the
calendar order (it agrees with true calendar order on all representable
dates, since months are at most 12 and days at most 31). Currency amounts
are rationals; database tables are lists of typed rows; the supabase query
combinators (`eq` filters, `order ... limit 1`, `single`) are embedded as
list filters, maxima and exact lookups.
-/

/-- A calendar date, as stored in the database (ISO `year-month-day`). -/
structure Date where
  year : Int
  month : Nat
  day : Nat
deriving DecidableEq

/-- Linearisation of the calendar order: valid dates have `month ≤ 12` and
`day ≤ 31`, so `month * 32 + day < 416` and the key compares dates exactly
as ISO date order does. -/
def Date.key (d : Date) : Int := d.year * 416 + (d.month : Int) * 32 + (d.day : Int)

instance : LE Date := ⟨fun a b => a.key ≤ b.key⟩

instance : LT Date := ⟨fun a b => a.key < b.key⟩

instance (a b : Date) : Decidable (a ≤ b) := inferInstanceAs (Decidable (a.key ≤ b.key))

instance (a b : Date) : Decidable (a < b) := inferInstanceAs (Decidable (a.key < b.key))

theorem Date.le_def (a b : Date) : (a ≤ b) = (a.key ≤ b.key) := rfl

theorem Date.lt_def (a b : Date) : (a < b) = (a.key < b.key) := rfl

theorem Date.lt_of_le_of_lt {a b c : Date} (h1 : a ≤ b) (h2 : b < c) : a < c :=
  Int.lt_of_le_of_lt h1 h2

theorem Date.le_of_lt {a b : Date} (h : a < b) : a ≤ b := Int.le_of_lt h

theorem Date.lt_or_ge (a b : Date) : a < b ∨ b ≤ a := Int.lt_or_le a.key b.key

theorem Date.le_trans {a b c : Date} (h1 : a ≤ b) (h2 : b ≤ c) : a ≤ c :=
  Int.le_trans h1 h2

/-- Gregorian leap-year test. -/
def isLeap (y : Int) : Bool := (y % 4 == 0 && y % 100 != 0) || y % 400 == 0

/-- Number of days in a month (embeds Python's `_last_day_of_month` trick,
which computes exactly the length of the month of the given date). -/
def lastDay (y : Int) (m : Nat) : Nat :=
  if m = 2 then (if isLeap y then 29 else 28)
  else if m = 4 ∨ m = 6 ∨ m = 9 ∨ m = 11 then 30
  else 31

/-- Embeds `_last_day_of_month(date)` from src/routers/sahod.py. -/
def Date.lastDayOfMonth (d : Date) : Nat := lastDay d.year d.month

/-- Embeds Python's `date.replace(day=x)`. -/
def Date.replaceDay (d : Date) (x : Nat) : Date := ⟨d.year, d.month, x⟩

/-- Embeds `date + relativedelta(months=1)` (day clamped to the target
month's length, as dateutil does). -/
def Date.addMonth (d : Date) : Date :=
  if 12 ≤ d.month then ⟨d.year + 1, 1, min d.day (lastDay (d.year + 1) 1)⟩
  else ⟨d.year, d.month + 1, min d.day (lastDay d.year (d.month + 1))⟩

/-- Embeds `date - relativedelta(months=1)`. -/
def Date.subMonth (d : Date) : Date :=
  if d.month ≤ 1 then ⟨d.year - 1, 12, min d.day (lastDay (d.year - 1) 12)⟩
  else ⟨d.year, d.month - 1, min d.day (lastDay d.year (d.month - 1))⟩

/-- Embeds `date - timedelta(days=1)`. -/
def Date.predDay (d : Date) : Date :=
  if 1 < d.day then ⟨d.year, d.month, d.day - 1⟩
  else if 1 < d.month then ⟨d.year, d.month - 1, lastDay d.year (d.month - 1)⟩
  else ⟨d.year - 1, 12, 31⟩

/-- Embeds `get_period_for_date` from src/routers/sahod.py (lines 98-149).
Returns `(period_start, period_end, expected_pay_date, payday_type)`;
`none` models the raised `HTTPException` for the unsupported weekly
frequency and the `TypeError` a missing `pay_day_2` would raise. -/
def get_period_for_date (frequency : String) (pay_day_1 : Nat) (pay_day_2 : Option Nat)
    (target_date : Date) : Option (Date × Date × Date × String) :=
  if frequency = "monthly" then
    if pay_day_1 ≤ target_date.day then
      let period_start := target_date.replaceDay (min pay_day_1 target_date.lastDayOfMonth)
      let next_month := target_date.addMonth
      let period_end := (next_month.replaceDay (min pay_day_1 next_month.lastDayOfMonth)).predDay
      some (period_start, period_end, period_start, "single")
    else
      let prev_month := target_date.subMonth
      let period_start := prev_month.replaceDay (min pay_day_1 prev_month.lastDayOfMonth)
      let period_end := (target_date.replaceDay (min pay_day_1 target_date.lastDayOfMonth)).predDay
      some (period_start, period_end, period_start, "single")
  else if frequency = "bimonthly" then
    match pay_day_2 with
    | none => none
    | some pd2 =>
      let day1 := min pay_day_1 target_date.lastDayOfMonth
      let day2 := min pd2 target_date.lastDayOfMonth
      if day2 ≤ target_date.day then
        let period_start := target_date.replaceDay day2
        let next_month := target_date.addMonth
        let period_end := (next_month.replaceDay (min pay_day_1 next_month.lastDayOfMonth)).predDay
        some (period_start, period_end, period_start, "katapusan")
      else if day1 ≤ target_date.day then
        let period_start := target_date.replaceDay day1
        let period_end := (target_date.replaceDay day2).predDay
        some (period_start, period_end, period_start, "kinsenas")
      else
        let prev_month := target_date.subMonth
        let day2_prev := min pd2 prev_month.lastDayOfMonth
        let period_start := prev_month.replaceDay day2_prev
        let period_end := (target_date.replaceDay day1).predDay
        some (period_start, period_end, period_start, "katapusan")
  else none

/-- Round a rational to the nearest integer, ties to even (Python's `round`). -/
def roundHalfEven (x : Rat) : Int :=
  let f : Int := ⌊x⌋
  let r : Rat := x - (f : Rat)
  if r < 1 / 2 then f
  else if 1 / 2 < r then f + 1
  else if f % 2 = 0 then f else f + 1

/-- Round a rational to 2 decimal places (Python's `round(x, 2)`). -/
def round2 (x : Rat) : Rat := ((roundHalfEven (x * 100) : Int) : Rat) / 100

/-- Embeds `calculate_safe_daily_spend` from src/routers/sahod.py
(lines 158-170). -/
def calculate_safe_daily_spend (remaining_budget : Rat) (days_left : Int) : Rat :=
  if days_left ≤ 0 then 0
  else if remaining_budget ≤ 0 then 0
  else round2 (remaining_budget / (days_left : Rat))

theorem roundHalfEven_nonneg {x : Rat} (hx : 0 ≤ x) : 0 ≤ roundHalfEven x := by
  have hf : (0 : Int) ≤ ⌊x⌋ := Int.floor_nonneg.mpr hx
  unfold roundHalfEven
  dsimp only
  split
  · exact hf
  · split
    · omega
    · split
      · exact hf
      · omega

theorem round2_nonneg {x : Rat} (hx : 0 ≤ x) : 0 ≤ round2 x := by
  unfold round2
  have h : (0 : Int) ≤ roundHalfEven (x * 100) :=
    roundHalfEven_nonneg (by positivity)
  have h100 : (0 : Rat) < 100 := by norm_num
  have : (0 : Rat) ≤ ((roundHalfEven (x * 100) : Int) : Rat) := by exact_mod_cast h
  positivity

/-- C9: `calculate_safe_daily_spend` returns 0 whenever `days_left ≤ 0` or
`remaining ≤ 0`, otherwise the rounded quotient; it never returns a
negative value (and, returning a pure rational, never divides by zero). -/
theorem safe_daily_spend_spec (remaining : Rat) (days : Int) :
    ((days ≤ 0 ∨ remaining ≤ 0) → calculate_safe_daily_spend remaining days = 0) ∧
    (0 < days → 0 < remaining →
      calculate_safe_daily_spend remaining days = round2 (remaining / (days : Rat))) ∧
    0 ≤ calculate_safe_daily_spend remaining days := by
  refine ⟨?_, ?_, ?_⟩
  · intro h
    unfold calculate_safe_daily_spend
    rcases h with h | h
    · simp [h]
    · by_cases hd : days ≤ 0 <;> simp [hd, h]
  · intro hd hr
    unfold calculate_safe_daily_spend
    rw [if_neg (by omega), if_neg (by exact not_le.mpr hr)]
  · unfold calculate_safe_daily_spend
    split
    · norm_num
    · split
      · norm_num
      · rename_i hd hr
        apply round2_nonneg
        have hdpos : (0 : Rat) < ((days : Int) : Rat) := by
          have : 0 < days := by omega
          exact_mod_cast this
        have hrpos : (0 : Rat) < remaining := lt_of_not_le hr
        positivity

/-- C9 witness: the three worked examples from the specification. -/
theorem safe_daily_spend_spec_witness :
    calculate_safe_daily_spend 0 5 = 0 ∧
    calculate_safe_daily_spend 500 0 = 0 ∧
    calculate_safe_daily_spend 1000 4 = 250 := by
  refine ⟨(safe_daily_spend_spec 0 5).1 (Or.inr (by norm_num)),
          (safe_daily_spend_spec 500 0).1 (Or.inl (by norm_num)), ?_⟩
  have h := (safe_daily_spend_spec 1000 4).2.1 (by norm_num) (by norm_num)
  rw [h]
  norm_num [round2, roundHalfEven]

/-- C8: the period calculator fails containment. With a monthly cycle on
`pay_day_1 = 31`, the branch test `target_date.day >= pay_day_1` compares
against the unclamped pay day, so 2023-02-28 is sent to the previous
period `[2023-01-31, 2023-02-27]`, which does not contain it. -/
theorem get_period_containment_fails :
    get_period_for_date "monthly" 31 none ⟨2023, 2, 28⟩ =
      some (⟨2023, 1, 31⟩, ⟨2023, 2, 27⟩, ⟨2023, 1, 31⟩, "single") ∧
    ((⟨2023, 2, 27⟩ : Date) < ⟨2023, 2, 28⟩) := by
  constructor
  · decide
  · decide

/-!
## Sahod data model

Rows of the relational tables `sahod_envelopes`, `sahod_pay_cycle_instances`
and `sahod_allocations`, with the fields the embedded operations read or
write. Timestamps that are only tested for presence (`confirmed_at`) are
modelled as `Option Nat`.
-/

/-- Row of `sahod_envelopes`. -/
structure Envelope where
  id : Nat
  user_id : Nat
  name : String
  emoji : String
  color : String
  target_amount : Option Rat
  is_rollover : Bool
  cookie_jar : Rat
  sort_order : Int
  is_active : Bool
deriving DecidableEq

/-- Row of `sahod_pay_cycle_instances`. -/
structure PayCycleInstance where
  id : Nat
  user_id : Nat
  pay_cycle_id : Nat
  period_start : Date
  period_end : Date
  expected_amount : Rat
  actual_amount : Option Rat
  is_assumed : Bool
  confirmed_at : Option Nat
  rollover_processed : Bool
deriving DecidableEq

/-- Row of `sahod_allocations`. -/
structure Allocation where
  id : Nat
  user_id : Nat
  pay_cycle_instance_id : Nat
  envelope_id : Nat
  allocated_amount : Rat
  target_percentage : Option Rat
  rollover_amount : Rat
  cached_spent : Rat
deriving DecidableEq

/-- The Sahod tables touched by the embedded endpoints. -/
structure SahodDB where
  envelopes : List Envelope
  instances : List PayCycleInstance
  allocations : List Allocation
deriving DecidableEq

/-- Supabase `.single()` on a filtered query: the row when exactly one row
matches. -/
def single_filter {α : Type} (l : List α) (p : α → Bool) : Option α :=
  match l.filter p with
  | [x] => some x
  | _ => none

/-- Lookup of one envelope by id and owner. -/
def find_envelope (db : SahodDB) (eid u : Nat) : Option Envelope :=
  db.envelopes.find? (fun e => decide (e.id = eid) && decide (e.user_id = u))

/-!
## Envelope creation (src/routers/sahod.py, `create_envelope`, lines 803-852)
-/

/-- Request body `EnvelopeCreate`. -/
structure EnvelopeCreate where
  name : String
  emoji : String
  color : String
  target_amount : Option Rat
  is_rollover : Bool
deriving DecidableEq

/-- Error raised by `create_envelope`. -/
inductive EnvelopeError
  | maxEnvelopes
deriving DecidableEq

/-- Running maximum of `sort_order` over a list of envelopes. -/
def fold_max_order (l : List Envelope) (acc : Option Int) : Option Int :=
  l.foldl
    (fun a e =>
      match a with
      | none => some e.sort_order
      | some b => if b < e.sort_order then some e.sort_order else some b) acc

/-- The `order sort_order desc limit 1` query over the user's envelopes
(note: not filtered on `is_active`): the maximum stored `sort_order`. -/
def max_sort_order (db : SahodDB) (u : Nat) : Option Int :=
  fold_max_order (db.envelopes.filter (fun e => decide (e.user_id = u))) none

/-- Embeds `create_envelope`: reject when the user already has 7 active
envelopes (the Python guard is `count_res.count and count_res.count >= 7`,
hence the conjunction with `cnt ≠ 0`), otherwise insert with the next
`sort_order`. `new_id` stands for the store-generated primary key. -/
def create_envelope (db : SahodDB) (u : Nat) (req : EnvelopeCreate) (new_id : Nat) :
    Except EnvelopeError (SahodDB × Envelope) :=
  let cnt := (db.envelopes.filter (fun e => decide (e.user_id = u) && e.is_active)).length
  if cnt ≠ 0 ∧ 7 ≤ cnt then .error .maxEnvelopes
  else
    let next_order : Int :=
      match max_sort_order db u with
      | some m => m + 1
      | none => 0
    let env : Envelope :=
      { id := new_id, user_id := u, name := req.name, emoji := req.emoji, color := req.color,
        target_amount := req.target_amount, is_rollover := req.is_rollover,
        cookie_jar := 0, sort_order := next_order, is_active := true }
    .ok ({ db with envelopes := db.envelopes ++ [env] }, env)

/-!
## Allocation update (src/routers/sahod.py, `update_allocation`, lines 1259-1325)
-/

/-- Errors raised by `update_allocation`. -/
inductive AllocUpdateError
  | noFields
  | notFound
  | belowSpent
deriving DecidableEq

/-- Embeds `update_allocation`: a locked instance (non-null `confirmed_at`)
rejects an `allocated_amount` below `cached_spent`. -/
def update_allocation (db : SahodDB) (u : Nat) (aid : Nat)
    (new_allocated : Option Rat) (new_target : Option Rat) :
    Except AllocUpdateError SahodDB :=
  if new_allocated.isNone ∧ new_target.isNone then .error .noFields
  else
    match single_filter db.allocations
        (fun a => decide (a.id = aid) && decide (a.user_id = u)) with
    | none => .error .notFound
    | some alloc =>
      let is_locked :=
        match db.instances.find? (fun i => decide (i.id = alloc.pay_cycle_instance_id)) with
        | some inst => inst.confirmed_at.isSome
        | none => false
      let apply_update : SahodDB :=
        { db with allocations := db.allocations.map (fun a =>
            if a.id = aid ∧ a.user_id = u then
              { a with
                allocated_amount := new_allocated.getD a.allocated_amount,
                target_percentage :=
                  match new_target with
                  | some t => some t
                  | none => a.target_percentage }
            else a) }
      if is_locked then
        match new_allocated with
        | some na =>
          if na < alloc.cached_spent then .error .belowSpent else .ok apply_update
        | none => .ok apply_update
      else .ok apply_update

/-!
## Cookie-jar withdrawal (src/routers/sahod.py, `use_from_cookie_jar`, lines 1431-1537)
-/

/-- Errors raised by `use_from_cookie_jar`. -/
inductive WithdrawError
  | proRequired
  | nonPositiveAmount
  | envelopeNotFound
  | insufficientBalance
  | noActivePeriod
  | noAllocation
deriving DecidableEq

/-- Embeds `use_from_cookie_jar`: PRO gate, positivity check, balance check
against `cookie_jar`, lookup of the instance covering `today` and of the
envelope's allocation in it, then the two updates (cookie jar down,
`rollover_amount` up by the same amount). -/
def use_from_cookie_jar (db : SahodDB) (u : Nat) (tier : String) (today : Date)
    (eid : Nat) (amount : Rat) : Except WithdrawError SahodDB :=
  if tier ≠ "pro" then .error .proRequired
  else if amount ≤ 0 then .error .nonPositiveAmount
  else
    match single_filter db.envelopes
        (fun e => decide (e.id = eid) && decide (e.user_id = u)) with
    | none => .error .envelopeNotFound
    | some env =>
      if env.cookie_jar < amount then .error .insufficientBalance
      else
        match single_filter db.instances
            (fun i => decide (i.user_id = u) && decide (i.period_start ≤ today) &&
              decide (today ≤ i.period_end)) with
        | none => .error .noActivePeriod
        | some inst =>
          match single_filter db.allocations
              (fun a => decide (a.pay_cycle_instance_id = inst.id) &&
                decide (a.envelope_id = eid) && decide (a.user_id = u)) with
          | none => .error .noAllocation
          | some alloc =>
            let new_jar := env.cookie_jar - amount
            let new_roll := alloc.rollover_amount + amount
            let db1 : SahodDB :=
              { db with envelopes := db.envelopes.map (fun e =>
                  if e.id = eid ∧ e.user_id = u then { e with cookie_jar := new_jar } else e) }
            .ok { db1 with allocations := db1.allocations.map (fun a =>
                  if a.id = alloc.id ∧ a.user_id = u then { a with rollover_amount := new_roll }
                  else a) }

/-!
## Lemmas about the running maximum and `.single()` queries
-/

theorem fold_max_order_acc (l : List Envelope) :
    ∀ x : Int, ∃ m, fold_max_order l (some x) = some m ∧ x ≤ m := by
  induction l with
  | nil => intro x; exact ⟨x, rfl, le_refl x⟩
  | cons e t ih =>
    intro x
    have hstep : fold_max_order (e :: t) (some x) =
        fold_max_order t (if x < e.sort_order then some e.sort_order else some x) := rfl
    rw [hstep]
    by_cases hc : x < e.sort_order
    · rw [if_pos hc]
      obtain ⟨m, hm, hle⟩ := ih e.sort_order
      exact ⟨m, hm, le_trans (le_of_lt hc) hle⟩
    · rw [if_neg hc]
      exact ih x

theorem fold_max_order_mem (l : List Envelope) :
    ∀ acc : Option Int, ∀ e ∈ l, ∃ m, fold_max_order l acc = some m ∧ e.sort_order ≤ m := by
  induction l with
  | nil => intro acc e he; cases he
  | cons a t ih =>
    intro acc e he
    rcases List.mem_cons.mp he with rfl | ht
    · cases acc with
      | none =>
        have hstep : fold_max_order (e :: t) none = fold_max_order t (some e.sort_order) := rfl
        rw [hstep]
        exact fold_max_order_acc t e.sort_order
      | some b =>
        have hstep : fold_max_order (e :: t) (some b) =
            fold_max_order t (if b < e.sort_order then some e.sort_order else some b) := rfl
        rw [hstep]
        by_cases hc : b < e.sort_order
        · rw [if_pos hc]
          exact fold_max_order_acc t e.sort_order
        · rw [if_neg hc]
          obtain ⟨m, hm, hle⟩ := fold_max_order_acc t b
          exact ⟨m, hm, le_trans (not_lt.mp hc) hle⟩
    · cases acc with
      | none => exact ih (some a.sort_order) e ht
      | some b =>
        have hstep : fold_max_order (a :: t) (some b) =
            fold_max_order t (if b < a.sort_order then some a.sort_order else some b) := rfl
        rw [hstep]
        by_cases hc : b < a.sort_order
        · rw [if_pos hc]; exact ih _ e ht
        · rw [if_neg hc]; exact ih _ e ht

theorem single_filter_map {α : Type} (l : List α) (f : α → α) (p : α → Bool)
    (hp : ∀ a, p (f a) = p a) : single_filter (l.map f) p = (single_filter l p).map f := by
  unfold single_filter
  rw [List.filter_map]
  have hpf : (p ∘ f) = p := funext hp
  rw [hpf]
  cases hl : l.filter p with
  | nil => rfl
  | cons x t => cases t with
    | nil => rfl
    | cons y s => rfl

/-- C10: a user with 7 or more active envelopes cannot create another one
(the operation fails before any insert); with fewer than 7, the envelope is
appended with `sort_order` strictly above every envelope of the user
(exactly `max + 1`, and `0` when the user has no envelopes at all). -/
theorem create_envelope_spec (db : SahodDB) (u : Nat) (req : EnvelopeCreate) (new_id : Nat) :
    (7 ≤ (db.envelopes.filter (fun e => decide (e.user_id = u) && e.is_active)).length →
      create_envelope db u req new_id = .error .maxEnvelopes) ∧
    ((db.envelopes.filter (fun e => decide (e.user_id = u) && e.is_active)).length < 7 →
      ∃ env, create_envelope db u req new_id =
          .ok ({ db with envelopes := db.envelopes ++ [env] }, env) ∧
        (∀ e ∈ db.envelopes, e.user_id = u → e.sort_order < env.sort_order) ∧
        ((∀ e ∈ db.envelopes, ¬ e.user_id = u) → env.sort_order = 0) ∧
        (∀ m, max_sort_order db u = some m → env.sort_order = m + 1)) := by
  constructor
  · intro h
    unfold create_envelope
    rw [if_pos ⟨by omega, h⟩]
  · intro h
    unfold create_envelope
    rw [if_neg (fun hc => absurd hc.2 (by omega))]
    refine ⟨_, rfl, ?_, ?_, ?_⟩
    · intro e he heu
      have hmem : e ∈ db.envelopes.filter (fun e => decide (e.user_id = u)) :=
        List.mem_filter.mpr ⟨he, by simp [heu]⟩
      obtain ⟨m, hm, hle⟩ := fold_max_order_mem _ none e hmem
      have hmax : max_sort_order db u = some m := hm
      simp only [hmax]
      omega
    · intro hall
      have hnil : db.envelopes.filter (fun e => decide (e.user_id = u)) = [] := by
        apply List.filter_eq_nil_iff.mpr
        intro e he
        simp [hall e he]
      have hmax : max_sort_order db u = none := by
        unfold max_sort_order
        rw [hnil]
        rfl
      simp only [hmax]
    · intro m hmax
      simp only [hmax]

/-- Fixture envelopes and request for the C10 witness. -/
def c10_env1 : Envelope :=
  { id := 1, user_id := 1, name := "Food", emoji := "box", color := "#fff",
    target_amount := none, is_rollover := false, cookie_jar := 0,
    sort_order := 3, is_active := true }

def c10_env2 : Envelope :=
  { id := 2, user_id := 1, name := "Fun", emoji := "box", color := "#fff",
    target_amount := none, is_rollover := true, cookie_jar := 0,
    sort_order := 9, is_active := true }

def c10_db : SahodDB := { envelopes := [c10_env1, c10_env2], instances := [], allocations := [] }

def c10_req : EnvelopeCreate :=
  { name := "Bills", emoji := "box", color := "#fff",
    target_amount := none, is_rollover := false }

/-- C10 witness: user 1 with two active envelopes (sort orders 3 and 9)
gets a third envelope appended with sort order 10. -/
theorem create_envelope_spec_witness :
    ∃ env, create_envelope c10_db 1 c10_req 5 =
        .ok ({ c10_db with envelopes := c10_db.envelopes ++ [env] }, env) ∧
      env.sort_order = 10 := by
  obtain ⟨env, h1, hlt, hz, hm⟩ := (create_envelope_spec c10_db 1 c10_req 5).2 (by decide)
  refine ⟨env, h1, ?_⟩
  rw [hm 9 rfl]
  decide

/-- C6: on a locked (confirmed) instance, updating an allocation's
`allocated_amount` is rejected exactly when the new amount is below
`cached_spent`, and succeeds otherwise (writing the new amount). -/
theorem update_allocation_locked_spec (db : SahodDB) (u aid : Nat) (na : Rat)
    (alloc : Allocation) (inst : PayCycleInstance)
    (halloc : single_filter db.allocations
      (fun a => decide (a.id = aid) && decide (a.user_id = u)) = some alloc)
    (hinst : db.instances.find?
      (fun i => decide (i.id = alloc.pay_cycle_instance_id)) = some inst)
    (hlocked : inst.confirmed_at.isSome = true) :
    (na < alloc.cached_spent →
      update_allocation db u aid (some na) none = .error .belowSpent) ∧
    (alloc.cached_spent ≤ na →
      ∃ db', update_allocation db u aid (some na) none = .ok db' ∧
        (∀ a ∈ db'.allocations, a.id = aid → a.user_id = u → a.allocated_amount = na)) := by
  have hbody : update_allocation db u aid (some na) none =
      (if na < alloc.cached_spent then .error .belowSpent else
        .ok { db with allocations := db.allocations.map (fun a =>
          if a.id = aid ∧ a.user_id = u then
            { a with allocated_amount := na, target_percentage := a.target_percentage }
          else a) }) := by
    unfold update_allocation
    rw [if_neg (by simp), halloc]
    dsimp only
    rw [hinst]
    dsimp only
    rw [hlocked]
    rfl
  constructor
  · intro h
    rw [hbody, if_pos h]
  · intro h
    rw [hbody, if_neg (not_lt.mpr h)]
    refine ⟨_, rfl, ?_⟩
    intro a ha haid hau
    rcases List.mem_map.mp ha with ⟨a0, ha0, rfl⟩
    by_cases hc : a0.id = aid ∧ a0.user_id = u
    · rw [if_pos hc]
    · rw [if_neg hc]
      rw [if_neg hc] at haid hau
      exact absurd ⟨haid, hau⟩ hc

/-- Fixture database for the C6 witness: allocation of 1000 with 700
already spent, on a confirmed (locked) instance. -/
def c6_db : SahodDB :=
  { envelopes := [],
    instances :=
      [{ id := 1, user_id := 1, pay_cycle_id := 1,
         period_start := ⟨2023, 10, 1⟩, period_end := ⟨2023, 10, 31⟩,
         expected_amount := 5000, actual_amount := some 5000,
         is_assumed := false, confirmed_at := some 7, rollover_processed := false }],
    allocations :=
      [{ id := 1, user_id := 1, pay_cycle_instance_id := 1, envelope_id := 1,
         allocated_amount := 1000, target_percentage := none,
         rollover_amount := 0, cached_spent := 700 }] }

/-- C6 witness: with `allocated = 1000, spent = 700`, updating to 600 fails
with a validation error and updating to 800 succeeds. -/
theorem update_allocation_locked_spec_witness :
    update_allocation c6_db 1 1 (some 600) none = .error .belowSpent ∧
    ∃ db', update_allocation c6_db 1 1 (some 800) none = .ok db' ∧
      (∀ a ∈ db'.allocations, a.id = 1 → a.user_id = 1 → a.allocated_amount = 800) := by
  have halloc : single_filter c6_db.allocations
      (fun a => decide (a.id = 1) && decide (a.user_id = 1)) =
      some { id := 1, user_id := 1, pay_cycle_instance_id := 1, envelope_id := 1,
             allocated_amount := 1000, target_percentage := none,
             rollover_amount := 0, cached_spent := 700 } := rfl
  have hinst : c6_db.instances.find? (fun i => decide (i.id = 1)) =
      some { id := 1, user_id := 1, pay_cycle_id := 1,
             period_start := ⟨2023, 10, 1⟩, period_end := ⟨2023, 10, 31⟩,
             expected_amount := 5000, actual_amount := some 5000,
             is_assumed := false, confirmed_at := some 7, rollover_processed := false } := rfl
  constructor
  · exact (update_allocation_locked_spec c6_db 1 1 600 _ _ halloc hinst rfl).1 (by norm_num)
  · exact (update_allocation_locked_spec c6_db 1 1 800 _ _ halloc hinst rfl).2 (by norm_num)

theorem single_filter_some {α : Type} {l : List α} {p : α → Bool} {x : α}
    (h : single_filter l p = some x) : x ∈ l ∧ p x = true := by
  unfold single_filter at h
  revert h
  cases hl : l.filter p with
  | nil => intro h; cases h
  | cons a t =>
    cases t with
    | nil =>
      intro h
      have hax : a = x := by injection h
      subst hax
      have hmem : a ∈ l.filter p := by rw [hl]; exact List.mem_singleton_self a
      exact ⟨(List.mem_filter.mp hmem).1, (List.mem_filter.mp hmem).2⟩
    | cons b s => intro h; cases h

/-- C5: cookie-jar withdrawal for a PRO user. A positive amount exceeding
the envelope's cookie jar fails with an insufficient-balance error (before
any write); an amount within the balance, with a current-period allocation
present, succeeds, leaves the envelope's cookie jar at exactly
`cookie_jar - amount` and that allocation's `rollover_amount` raised by
exactly `amount`. -/
theorem cookie_jar_withdraw_spec (db : SahodDB) (u : Nat) (today : Date) (eid : Nat)
    (amount : Rat) (env : Envelope)
    (henv : single_filter db.envelopes
      (fun e => decide (e.id = eid) && decide (e.user_id = u)) = some env)
    (hpos : 0 < amount) :
    (env.cookie_jar < amount →
      use_from_cookie_jar db u "pro" today eid amount = .error .insufficientBalance) ∧
    (amount ≤ env.cookie_jar →
      ∀ inst alloc,
        single_filter db.instances
          (fun i => decide (i.user_id = u) && decide (i.period_start ≤ today) &&
            decide (today ≤ i.period_end)) = some inst →
        single_filter db.allocations
          (fun a => decide (a.pay_cycle_instance_id = inst.id) &&
            decide (a.envelope_id = eid) && decide (a.user_id = u)) = some alloc →
        ∃ db', use_from_cookie_jar db u "pro" today eid amount = .ok db' ∧
          single_filter db'.envelopes
            (fun e => decide (e.id = eid) && decide (e.user_id = u)) =
            some { env with cookie_jar := env.cookie_jar - amount } ∧
          (∀ a ∈ db'.allocations, a.id = alloc.id → a.user_id = u →
            a.rollover_amount = alloc.rollover_amount + amount)) := by
  have hstart : use_from_cookie_jar db u "pro" today eid amount =
      (if env.cookie_jar < amount then .error .insufficientBalance
       else
        match single_filter db.instances
            (fun i => decide (i.user_id = u) && decide (i.period_start ≤ today) &&
              decide (today ≤ i.period_end)) with
        | none => .error .noActivePeriod
        | some inst =>
          match single_filter db.allocations
              (fun a => decide (a.pay_cycle_instance_id = inst.id) &&
                decide (a.envelope_id = eid) && decide (a.user_id = u)) with
          | none => .error .noAllocation
          | some alloc =>
            .ok { envelopes := db.envelopes.map (fun e =>
                    if e.id = eid ∧ e.user_id = u then
                      { e with cookie_jar := env.cookie_jar - amount } else e),
                  instances := db.instances,
                  allocations := db.allocations.map (fun a =>
                    if a.id = alloc.id ∧ a.user_id = u then
                      { a with rollover_amount := alloc.rollover_amount + amount } else a) }) := by
    unfold use_from_cookie_jar
    rw [if_neg (by simp), if_neg (not_le.mpr hpos), henv]
  obtain ⟨henvmem, hpenv⟩ := single_filter_some henv
  simp only [Bool.and_eq_true, decide_eq_true_eq] at hpenv
  constructor
  · intro h
    rw [hstart, if_pos h]
  · intro h inst alloc hinst halloc
    rw [hstart, if_neg (not_lt.mpr h), hinst]
    dsimp only
    rw [halloc]
    refine ⟨_, rfl, ?_, ?_⟩
    · have hpres : ∀ e : Envelope,
          (fun e : Envelope => decide (e.id = eid) && decide (e.user_id = u))
            (if e.id = eid ∧ e.user_id = u then
              { e with cookie_jar := env.cookie_jar - amount } else e) =
          (fun e : Envelope => decide (e.id = eid) && decide (e.user_id = u)) e := by
        intro e
        by_cases hc : e.id = eid ∧ e.user_id = u
        · rw [if_pos hc]
        · rw [if_neg hc]
      rw [single_filter_map db.envelopes _ _ hpres, henv]
      dsimp only [Option.map]
      rw [if_pos hpenv]
    · intro a ha haid hau
      rcases List.mem_map.mp ha with ⟨a0, ha0, rfl⟩
      by_cases hc : a0.id = alloc.id ∧ a0.user_id = u
      · rw [if_pos hc]
      · rw [if_neg hc]
        rw [if_neg hc] at haid hau
        exact absurd ⟨haid, hau⟩ hc

/-- Fixture for the C5 witness: PRO user 1, envelope with `cookie_jar = 200`,
a period instance covering 2023-10-12, and an allocation for the envelope
in that period with `rollover_amount = 0`. -/
def c5_env : Envelope :=
  { id := 1, user_id := 1, name := "Food", emoji := "box", color := "#fff",
    target_amount := none, is_rollover := true, cookie_jar := 200,
    sort_order := 0, is_active := true }

def c5_db : SahodDB :=
  { envelopes := [c5_env],
    instances :=
      [{ id := 1, user_id := 1, pay_cycle_id := 1,
         period_start := ⟨2023, 10, 1⟩, period_end := ⟨2023, 10, 31⟩,
         expected_amount := 5000, actual_amount := none,
         is_assumed := true, confirmed_at := none, rollover_processed := false }],
    allocations :=
      [{ id := 1, user_id := 1, pay_cycle_instance_id := 1, envelope_id := 1,
         allocated_amount := 1000, target_percentage := none,
         rollover_amount := 0, cached_spent := 0 }] }

/-- C5 witness: with `cookie_jar = 200`, `withdraw(300)` fails with the
insufficient-balance error, while `withdraw(150)` succeeds leaving the
cookie jar at 50 and the current allocation's rollover at 150. -/
theorem cookie_jar_withdraw_spec_witness :
    use_from_cookie_jar c5_db 1 "pro" ⟨2023, 10, 12⟩ 1 300 =
      .error .insufficientBalance ∧
    ∃ db', use_from_cookie_jar c5_db 1 "pro" ⟨2023, 10, 12⟩ 1 150 = .ok db' ∧
      single_filter db'.envelopes
        (fun e => decide (e.id = 1) && decide (e.user_id = 1)) =
        some { c5_env with cookie_jar := 50 } ∧
      (∀ a ∈ db'.allocations, a.id = 1 → a.user_id = 1 → a.rollover_amount = 150) := by
  have henv : single_filter c5_db.envelopes
      (fun e => decide (e.id = 1) && decide (e.user_id = 1)) = some c5_env := rfl
  constructor
  · exact (cookie_jar_withdraw_spec c5_db 1 ⟨2023, 10, 12⟩ 1 300 c5_env henv
      (by norm_num)).1 (by norm_num [c5_env])
  · obtain ⟨db', h1, h2, h3⟩ :=
      (cookie_jar_withdraw_spec c5_db 1 ⟨2023, 10, 12⟩ 1 150 c5_env henv
        (by norm_num)).2 (by norm_num [c5_env]) _ _ rfl rfl
    refine ⟨db', h1, ?_, ?_⟩
    · rw [h2]
      norm_num [c5_env]
    · intro a ha haid hau
      rw [h3 a ha haid hau]
      norm_num

/-!
## Rollover processing

`process_completed_period_rollover` (src/routers/sahod.py, lines 173-238)
checks the `rollover_processed` flag first and finally sets it; the manual
endpoint `process_rollover` (lines 1337-1428) performs the same cookie-jar
additions but neither checks nor sets the flag.
-/

/-- Update one envelope's cookie jar (update by id and owner). -/
def update_envelope_jar (db : SahodDB) (eid u : Nat) (v : Rat) : SahodDB :=
  { db with envelopes := db.envelopes.map (fun e =>
      if e.id = eid ∧ e.user_id = u then { e with cookie_jar := v } else e) }

/-- The allocations-with-envelope join executed before the rollover loop
(`select('*, sahod_envelopes(...)')`): each allocation of the instance with
a snapshot of its envelope. -/
def rollover_join (db : SahodDB) (u iid : Nat) : List (Allocation × Option Envelope) :=
  (db.allocations.filter (fun a =>
      decide (a.pay_cycle_instance_id = iid) && decide (a.user_id = u))).map
    (fun a => (a, db.envelopes.find? (fun e => decide (e.id = a.envelope_id))))

/-- The rollover loop body shared by both entry points: for each joined
allocation whose envelope has `is_rollover`, add the positive remaining
`(allocated + rollover) - spent` to the envelope's cookie jar, computed
against the join-time snapshot of the envelope. -/
def apply_rollover_allocs (u : Nat) (db : SahodDB)
    (items : List (Allocation × Option Envelope)) : SahodDB :=
  items.foldl
    (fun st item =>
      match item.2 with
      | none => st
      | some env =>
        if env.is_rollover then
          let remaining := (item.1.allocated_amount + item.1.rollover_amount) - item.1.cached_spent
          if 0 < remaining then update_envelope_jar st env.id u (env.cookie_jar + remaining)
          else st
        else st) db

/-- Embeds `process_completed_period_rollover`: returns unchanged when the
instance is found with `rollover_processed` already true, otherwise runs the
loop and finally marks the instance processed. -/
def process_completed_period_rollover (u iid : Nat) (db : SahodDB) : SahodDB :=
  let already :=
    match db.instances.find? (fun i => decide (i.id = iid)) with
    | some i => i.rollover_processed
    | none => false
  if already then db
  else
    let items := rollover_join db u iid
    if items.isEmpty then db
    else
      let db1 := apply_rollover_allocs u db items
      { db1 with instances := db1.instances.map (fun j =>
          if j.id = iid then { j with rollover_processed := true } else j) }

/-- The `order period_end desc limit 1` query for the most recent completed
confirmed instance (`period_end < today`, `is_assumed = false`). -/
def latest_completed_instance (db : SahodDB) (u : Nat) (today : Date) :
    Option PayCycleInstance :=
  (db.instances.filter (fun i =>
      decide (i.user_id = u) && decide (i.period_end < today) &&
        decide (i.is_assumed = false))).foldl
    (fun acc i =>
      match acc with
      | none => some i
      | some b => if b.period_end < i.period_end then some i else some b) none

/-- Embeds the `process_rollover` endpoint: picks the most recent completed
confirmed instance and runs the rollover loop on it, without checking or
setting `rollover_processed`. -/
def process_rollover (u : Nat) (today : Date) (db : SahodDB) : SahodDB :=
  match latest_completed_instance db u today with
  | none => db
  | some inst =>
    let items := rollover_join db u inst.id
    if items.isEmpty then db
    else apply_rollover_allocs u db items

/-- Fixture for C3: a completed, confirmed instance whose
`rollover_processed` flag is already true, one rollover envelope with
`cookie_jar = 100`, and an allocation leaving a remaining of 100. -/
def c3_env : Envelope :=
  { id := 1, user_id := 1, name := "Save", emoji := "box", color := "#fff",
    target_amount := none, is_rollover := true, cookie_jar := 100,
    sort_order := 0, is_active := true }

def c3_inst : PayCycleInstance :=
  { id := 1, user_id := 1, pay_cycle_id := 1,
    period_start := ⟨2023, 9, 1⟩, period_end := ⟨2023, 10, 1⟩,
    expected_amount := 5000, actual_amount := some 5000,
    is_assumed := false, confirmed_at := some 7, rollover_processed := true }

def c3_alloc : Allocation :=
  { id := 1, user_id := 1, pay_cycle_instance_id := 1, envelope_id := 1,
    allocated_amount := 100, target_percentage := none,
    rollover_amount := 0, cached_spent := 0 }

def c3_db : SahodDB :=
  { envelopes := [c3_env], instances := [c3_inst], allocations := [c3_alloc] }

/-- C3 (refuting evaluation): on an instance whose `rollover_processed`
flag is already true, the flag-checking helper is a no-op, but the
`process_rollover` endpoint still re-adds the remaining 100 to the
envelope's cookie jar (100 becomes 200), so rollover processing is not
idempotent per period instance. -/
theorem process_rollover_not_idempotent :
    c3_inst.rollover_processed = true ∧
    process_completed_period_rollover 1 1 c3_db = c3_db ∧
    find_envelope (process_rollover 1 ⟨2023, 10, 12⟩ c3_db) 1 1 =
      some { c3_env with cookie_jar := 200 } := by
  refine ⟨rfl, rfl, ?_⟩
  have h1 : latest_completed_instance c3_db 1 ⟨2023, 10, 12⟩ = some c3_inst := rfl
  have h2 : process_rollover 1 ⟨2023, 10, 12⟩ c3_db =
      apply_rollover_allocs 1 c3_db (rollover_join c3_db 1 1) := by
    unfold process_rollover
    rw [h1]
    dsimp only
    rw [if_neg (by decide)]
    rfl
  rw [h2]
  have h3 : rollover_join c3_db 1 1 = [(c3_alloc, some c3_env)] := rfl
  rw [h3]
  have h4 : apply_rollover_allocs 1 c3_db [(c3_alloc, some c3_env)] =
      update_envelope_jar c3_db c3_env.id 1 (c3_env.cookie_jar +
        ((c3_alloc.allocated_amount + c3_alloc.rollover_amount) - c3_alloc.cached_spent)) := by
    unfold apply_rollover_allocs
    dsimp only [List.foldl]
    rw [if_pos (show c3_env.is_rollover = true from rfl)]
    rw [if_pos (by norm_num [c3_alloc])]
  rw [h4]
  have h5 : c3_env.cookie_jar +
      ((c3_alloc.allocated_amount + c3_alloc.rollover_amount) - c3_alloc.cached_spent) =
      (200 : Rat) := by
    norm_num [c3_env, c3_alloc]
  rw [h5]
  rfl

/-!
## Fill allocations (src/routers/sahod.py, `fill_allocations`, lines 1103-1198)

The endpoint verifies the instance, deletes all of its allocation rows,
then inserts the new rows one at a time. To reason about partial failure,
the write sequence is reified as a list of primitive store operations
(`FillOp`), so that every prefix of the sequence is an observable
intermediate state.
-/

/-- One entry of the request's `allocations` list. -/
structure AllocationItem where
  envelope_id : Nat
  allocated_amount : Rat
  target_percentage : Option Rat
deriving DecidableEq

/-- A primitive write issued by `fill_allocations`, in order. -/
inductive FillOp
  | deleteAll (iid u : Nat)
  | insert (a : Allocation)
deriving DecidableEq

/-- Apply one primitive write to the store. -/
def apply_fill_op (db : SahodDB) (op : FillOp) : SahodDB :=
  match op with
  | .deleteAll iid u =>
    { db with allocations := db.allocations.filter (fun a =>
        !(decide (a.pay_cycle_instance_id = iid) && decide (a.user_id = u))) }
  | .insert a => { db with allocations := db.allocations ++ [a] }

/-- The `order period_start desc limit 1` query for the most recent
instance strictly before the given period start. -/
def prev_instance_for (db : SahodDB) (u : Nat) (start : Date) : Option PayCycleInstance :=
  (db.instances.filter (fun i =>
      decide (i.user_id = u) && decide (i.period_start < start))).foldl
    (fun acc i =>
      match acc with
      | none => some i
      | some b => if b.period_start < i.period_start then some i else some b) none

/-- The rollover-in computation inside the fill loop: for a rollover
envelope, `max 0 ((prev_allocated + prev_rollover) - prev_spent)` from the
previous instance's allocation for the same envelope, else 0. -/
def fill_rollover_amount (db : SahodDB) (u : Nat) (inst : PayCycleInstance)
    (env : Envelope) (eid : Nat) : Rat :=
  if env.is_rollover then
    match prev_instance_for db u inst.period_start with
    | none => 0
    | some pi =>
      match db.allocations.find? (fun a =>
          decide (a.pay_cycle_instance_id = pi.id) && decide (a.envelope_id = eid)) with
      | none => 0
      | some prev => max 0 ((prev.allocated_amount + prev.rollover_amount) - prev.cached_spent)
  else 0

/-- The allocation rows built by the fill loop (items whose envelope is not
found are skipped, mirroring the `continue`); `fresh` numbers the
store-generated primary keys. The loop runs after the delete, so its reads
go against the post-delete state. -/
def fill_payloads (db : SahodDB) (u : Nat) (inst : PayCycleInstance)
    (items : List AllocationItem) (fresh : Nat) : List Allocation :=
  match items with
  | [] => []
  | it :: rest =>
    match db.envelopes.find? (fun e =>
        decide (e.id = it.envelope_id) && decide (e.user_id = u)) with
    | none => fill_payloads db u inst rest fresh
    | some env =>
      { id := fresh, user_id := u, pay_cycle_instance_id := inst.id,
        envelope_id := it.envelope_id, allocated_amount := it.allocated_amount,
        target_percentage := it.target_percentage,
        rollover_amount := fill_rollover_amount db u inst env it.envelope_id,
        cached_spent := 0 } :: fill_payloads db u inst rest (fresh + 1)

/-- The full write sequence of `fill_allocations`: `none` when the instance
is not owned by the caller (404), otherwise the delete followed by the
inserts computed against the post-delete state. -/
def fill_ops (db : SahodDB) (u iid : Nat) (items : List AllocationItem) (fresh : Nat) :
    Option (List FillOp) :=
  match db.instances.find? (fun i => decide (i.id = iid) && decide (i.user_id = u)) with
  | none => none
  | some inst =>
    some (FillOp.deleteAll inst.id u ::
      (fill_payloads (apply_fill_op db (FillOp.deleteAll inst.id u)) u inst items fresh).map
        FillOp.insert)

/-- Embeds `fill_allocations` (the fully successful execution). -/
def fill_allocations (db : SahodDB) (u iid : Nat) (items : List AllocationItem)
    (fresh : Nat) : Option SahodDB :=
  (fill_ops db u iid items fresh).map (fun ops => ops.foldl apply_fill_op db)

/-- The allocation rows of one instance, as the claim observes them. -/
def inst_allocs (db : SahodDB) (iid u : Nat) : List Allocation :=
  db.allocations.filter (fun a =>
    decide (a.pay_cycle_instance_id = iid) && decide (a.user_id = u))

theorem inst_allocs_delete (db : SahodDB) (iid u : Nat) :
    inst_allocs (apply_fill_op db (.deleteAll iid u)) iid u = [] := by
  unfold inst_allocs apply_fill_op
  dsimp only
  apply List.filter_eq_nil_iff.mpr
  intro a ha
  have hk := (List.mem_filter.mp ha).2
  simp only [Bool.not_eq_true'] at hk
  simp [hk]

theorem insert_fold_inst_allocs (iid u : Nat) :
    ∀ (l : List Allocation) (db : SahodDB),
      (∀ a ∈ l, a.pay_cycle_instance_id = iid ∧ a.user_id = u) →
      inst_allocs ((l.map FillOp.insert).foldl apply_fill_op db) iid u =
        inst_allocs db iid u ++ l := by
  intro l
  induction l with
  | nil => intro db h; simp
  | cons a t ih =>
    intro db h
    have hstep : ((a :: t).map FillOp.insert).foldl apply_fill_op db =
        (t.map FillOp.insert).foldl apply_fill_op (apply_fill_op db (.insert a)) := rfl
    rw [hstep, ih _ (fun x hx => h x (List.mem_cons_of_mem a hx))]
    have ha := h a (List.mem_cons_self a t)
    have hsingle : inst_allocs (apply_fill_op db (.insert a)) iid u =
        inst_allocs db iid u ++ [a] := by
      unfold inst_allocs apply_fill_op
      dsimp only
      rw [List.filter_append]
      simp [ha.1, ha.2]
    rw [hsingle, List.append_assoc]
    rfl

theorem fill_payloads_match (db : SahodDB) (u : Nat) (inst : PayCycleInstance) :
    ∀ (items : List AllocationItem) (fresh : Nat),
      ∀ a ∈ fill_payloads db u inst items fresh,
        a.pay_cycle_instance_id = inst.id ∧ a.user_id = u := by
  intro items
  induction items with
  | nil => intro fresh a ha; simp [fill_payloads] at ha
  | cons it rest ih =>
    intro fresh a ha
    unfold fill_payloads at ha
    revert ha
    cases hfe : db.envelopes.find? (fun e =>
        decide (e.id = it.envelope_id) && decide (e.user_id = u)) with
    | none => intro ha; exact ih fresh a ha
    | some env =>
      intro ha
      rcases List.mem_cons.mp ha with rfl | hrest
      · exact ⟨rfl, rfl⟩
      · exact ih (fresh + 1) a hrest

/-- C4 amended: `fill_allocations` is delete-then-insert-one-at-a-time, not
all-or-none. Every prefix of its write sequence leaves the instance's
allocation rows equal to a prefix of the new payload list (so never a mix
of old and new rows — but a mid-sequence failure leaves a strict subset of
the new rows, not the old ones and not all of the new ones). -/
theorem fill_delete_then_insert_states (db : SahodDB) (u iid : Nat)
    (items : List AllocationItem) (fresh : Nat) (inst : PayCycleInstance)
    (hfind : db.instances.find?
      (fun i => decide (i.id = iid) && decide (i.user_id = u)) = some inst) :
    fill_ops db u iid items fresh =
      some (FillOp.deleteAll inst.id u ::
        (fill_payloads (apply_fill_op db (FillOp.deleteAll inst.id u)) u inst items fresh).map
          FillOp.insert) ∧
    ∀ k, inst_allocs
        (((FillOp.deleteAll inst.id u ::
          (fill_payloads (apply_fill_op db (FillOp.deleteAll inst.id u)) u inst items fresh).map
            FillOp.insert).take (k + 1)).foldl apply_fill_op db) inst.id u =
      (fill_payloads (apply_fill_op db (FillOp.deleteAll inst.id u)) u inst items fresh).take k := by
  constructor
  · unfold fill_ops
    rw [hfind]
  · intro k
    have hlist : (FillOp.deleteAll inst.id u ::
        (fill_payloads (apply_fill_op db (FillOp.deleteAll inst.id u)) u inst items fresh).map
          FillOp.insert).take (k + 1) =
        FillOp.deleteAll inst.id u ::
          ((fill_payloads (apply_fill_op db (FillOp.deleteAll inst.id u)) u inst items fresh).take
            k).map FillOp.insert := by
      rw [List.take_succ_cons, List.map_take]
    rw [hlist]
    have hfold : (FillOp.deleteAll inst.id u ::
        ((fill_payloads (apply_fill_op db (FillOp.deleteAll inst.id u)) u inst items fresh).take
          k).map FillOp.insert).foldl apply_fill_op db =
        (((fill_payloads (apply_fill_op db (FillOp.deleteAll inst.id u)) u inst items fresh).take
          k).map FillOp.insert).foldl apply_fill_op
          (apply_fill_op db (FillOp.deleteAll inst.id u)) := rfl
    rw [hfold, insert_fold_inst_allocs inst.id u _ _
      (fun a ha => fill_payloads_match _ u inst items fresh a (List.mem_of_mem_take ha)),
      inst_allocs_delete]
    rfl

/-- Fixture for C4: instance 1 (assumed) with one existing allocation (id
10, envelope 1, 500), two envelopes, and a fill request for envelopes 1 and
2. -/
def c4_inst : PayCycleInstance :=
  { id := 1, user_id := 1, pay_cycle_id := 1,
    period_start := ⟨2023, 10, 1⟩, period_end := ⟨2023, 10, 31⟩,
    expected_amount := 5000, actual_amount := none,
    is_assumed := true, confirmed_at := none, rollover_processed := false }

def c4_db : SahodDB :=
  { envelopes :=
      [{ id := 1, user_id := 1, name := "Food", emoji := "box", color := "#fff",
         target_amount := none, is_rollover := false, cookie_jar := 0,
         sort_order := 0, is_active := true },
       { id := 2, user_id := 1, name := "Fun", emoji := "box", color := "#fff",
         target_amount := none, is_rollover := false, cookie_jar := 0,
         sort_order := 1, is_active := true }],
    instances := [c4_inst],
    allocations :=
      [{ id := 10, user_id := 1, pay_cycle_instance_id := 1, envelope_id := 1,
         allocated_amount := 500, target_percentage := none,
         rollover_amount := 0, cached_spent := 0 }] }

def c4_items : List AllocationItem :=
  [{ envelope_id := 1, allocated_amount := 100, target_percentage := none },
   { envelope_id := 2, allocated_amount := 200, target_percentage := none }]

/-- C4 counterexample: stopping the fill write sequence after 2 of its 3
writes (the delete plus the first insert) leaves the instance's allocation
rows equal to neither the old rows nor the final rows — the insert phase is
not all-or-none. -/
theorem fill_not_all_or_none :
    ((fill_ops c4_db 1 1 c4_items 11).getD []).length = 3 ∧
    inst_allocs ((((fill_ops c4_db 1 1 c4_items 11).getD []).take 2).foldl
        apply_fill_op c4_db) 1 1 ≠
      inst_allocs c4_db 1 1 ∧
    inst_allocs ((((fill_ops c4_db 1 1 c4_items 11).getD []).take 2).foldl
        apply_fill_op c4_db) 1 1 ≠
      inst_allocs (((fill_ops c4_db 1 1 c4_items 11).getD []).foldl
        apply_fill_op c4_db) 1 1 := by
  refine ⟨rfl, ?_, ?_⟩
  · decide
  · decide

/-- C4 witness for the amended theorem, at the concrete fixture. -/
theorem fill_delete_then_insert_states_witness :
    fill_ops c4_db 1 1 c4_items 11 =
      some (FillOp.deleteAll c4_inst.id 1 ::
        (fill_payloads (apply_fill_op c4_db (FillOp.deleteAll c4_inst.id 1)) 1 c4_inst c4_items
          11).map FillOp.insert) ∧
    ∀ k, inst_allocs
        (((FillOp.deleteAll c4_inst.id 1 ::
          (fill_payloads (apply_fill_op c4_db (FillOp.deleteAll c4_inst.id 1)) 1 c4_inst c4_items
            11).map FillOp.insert).take (k + 1)).foldl apply_fill_op c4_db) c4_inst.id 1 =
      (fill_payloads (apply_fill_op c4_db (FillOp.deleteAll c4_inst.id 1)) 1 c4_inst c4_items
        11).take k :=
  fill_delete_then_insert_states c4_db 1 1 c4_items 11 c4_inst rfl

theorem prev_fold_mem :
    ∀ (l : List PayCycleInstance) (acc : Option PayCycleInstance) (x : PayCycleInstance),
      l.foldl
        (fun acc i =>
          match acc with
          | none => some i
          | some b => if b.period_start < i.period_start then some i else some b) acc =
        some x →
      x ∈ l ∨ acc = some x := by
  intro l
  induction l with
  | nil => intro acc x h; exact Or.inr h
  | cons a t ih =>
    intro acc x h
    cases acc with
    | none =>
      rcases ih (some a) x h with hm | he
      · exact Or.inl (List.mem_cons_of_mem a hm)
      · have : a = x := by injection he
        exact Or.inl (this ▸ List.mem_cons_self a t)
    | some b =>
      by_cases hc : b.period_start < a.period_start
      · rw [show ((a :: t).foldl _ (some b)) =
            t.foldl _ (if b.period_start < a.period_start then some a else some b) from rfl,
          if_pos hc] at h
        rcases ih (some a) x h with hm | he
        · exact Or.inl (List.mem_cons_of_mem a hm)
        · have : a = x := by injection he
          exact Or.inl (this ▸ List.mem_cons_self a t)
      · rw [show ((a :: t).foldl _ (some b)) =
            t.foldl _ (if b.period_start < a.period_start then some a else some b) from rfl,
          if_neg hc] at h
        rcases ih (some b) x h with hm | he
        · exact Or.inl (List.mem_cons_of_mem a hm)
        · exact Or.inr he

theorem prev_instance_for_mem (db : SahodDB) (u : Nat) (s : Date)
    (pi : PayCycleInstance) (h : prev_instance_for db u s = some pi) :
    pi ∈ db.instances ∧ pi.user_id = u ∧ pi.period_start < s := by
  unfold prev_instance_for at h
  rcases prev_fold_mem _ none pi h with hm | he
  · have := List.mem_filter.mp hm
    refine ⟨this.1, ?_, ?_⟩
    · have h2 := this.2
      simp only [Bool.and_eq_true, decide_eq_true_eq] at h2
      exact h2.1
    · have h2 := this.2
      simp only [Bool.and_eq_true, decide_eq_true_eq] at h2
      exact h2.2
  · cases he

theorem find?_filter_of_imp {α : Type} (l : List α) (p q : α → Bool)
    (h : ∀ a, p a = true → q a = true) : (l.filter q).find? p = l.find? p := by
  induction l with
  | nil => rfl
  | cons a t ih =>
    by_cases hp : p a = true
    · rw [List.filter_cons_of_pos (h a hp), List.find?_cons_of_pos _ hp,
        List.find?_cons_of_pos _ hp]
    · by_cases hq : q a = true
      · rw [List.filter_cons_of_pos hq, List.find?_cons_of_neg _ (by simp [hp]),
          List.find?_cons_of_neg _ (by simp [hp])]
        exact ih
      · rw [List.filter_cons_of_neg (by simp [hq]), List.find?_cons_of_neg _ (by simp [hp])]
        exact ih

theorem fill_rollover_amount_nonneg (db : SahodDB) (u : Nat) (inst : PayCycleInstance)
    (env : Envelope) (eid : Nat) : 0 ≤ fill_rollover_amount db u inst env eid := by
  unfold fill_rollover_amount
  split
  · split
    · norm_num
    · split
      · norm_num
      · exact le_max_left 0 _
  · norm_num

theorem fill_payloads_rollover (db : SahodDB) (u : Nat) (inst : PayCycleInstance) :
    ∀ (items : List AllocationItem) (fresh : Nat),
      ∀ a ∈ fill_payloads db u inst items fresh,
        ∃ env, db.envelopes.find? (fun e =>
            decide (e.id = a.envelope_id) && decide (e.user_id = u)) = some env ∧
          a.rollover_amount = fill_rollover_amount db u inst env a.envelope_id := by
  intro items
  induction items with
  | nil => intro fresh a ha; simp [fill_payloads] at ha
  | cons it rest ih =>
    intro fresh a ha
    unfold fill_payloads at ha
    revert ha
    cases hfe : db.envelopes.find? (fun e =>
        decide (e.id = it.envelope_id) && decide (e.user_id = u)) with
    | none => intro ha; exact ih fresh a ha
    | some env =>
      intro ha
      rcases List.mem_cons.mp ha with rfl | hrest
      · exact ⟨env, hfe, rfl⟩
      · exact ih (fresh + 1) a hrest

/-- C7: every allocation row built by the fill loop carries a non-negative
`rollover_amount`; for an envelope with `is_rollover = true` it equals
`max 0 ((prev_allocated + prev_rollover) - prev_spent)` taken from the
immediately preceding instance's allocation for the same envelope (the
instance with the greatest `period_start` before the current one), and it
is 0 when no preceding instance or no preceding allocation exists. -/
theorem fill_rollover_in_spec (db : SahodDB) (u iid : Nat) (items : List AllocationItem)
    (fresh : Nat) (inst : PayCycleInstance)
    (hfind : db.instances.find?
      (fun i => decide (i.id = iid) && decide (i.user_id = u)) = some inst)
    (hids : (db.instances.map (fun i => i.id)).Nodup) :
    ∀ a ∈ fill_payloads (apply_fill_op db (FillOp.deleteAll inst.id u)) u inst items fresh,
      0 ≤ a.rollover_amount ∧
      ∀ env, db.envelopes.find? (fun e =>
          decide (e.id = a.envelope_id) && decide (e.user_id = u)) = some env →
        env.is_rollover = true →
        ((prev_instance_for db u inst.period_start = none → a.rollover_amount = 0) ∧
         ∀ pi, prev_instance_for db u inst.period_start = some pi →
           ((db.allocations.find? (fun x =>
               decide (x.pay_cycle_instance_id = pi.id) &&
                 decide (x.envelope_id = a.envelope_id)) = none → a.rollover_amount = 0) ∧
            ∀ prev, db.allocations.find? (fun x =>
                decide (x.pay_cycle_instance_id = pi.id) &&
                  decide (x.envelope_id = a.envelope_id)) = some prev →
              a.rollover_amount =
                max 0 ((prev.allocated_amount + prev.rollover_amount) - prev.cached_spent))) := by
  intro a ha
  obtain ⟨env0, hfe0, hroll⟩ := fill_payloads_rollover _ u inst items fresh a ha
  constructor
  · rw [hroll]
    exact fill_rollover_amount_nonneg _ _ _ _ _
  · intro env hfe hr
    have hfe0' : db.envelopes.find? (fun e =>
        decide (e.id = a.envelope_id) && decide (e.user_id = u)) = some env0 := hfe0
    have henv : env0 = env := by
      have h := hfe0'.symm.trans hfe
      injection h
    subst henv
    have hprev_eq : prev_instance_for (apply_fill_op db (FillOp.deleteAll inst.id u)) u
        inst.period_start = prev_instance_for db u inst.period_start := rfl
    constructor
    · intro hnone
      rw [hroll]
      unfold fill_rollover_amount
      rw [if_pos hr, hprev_eq, hnone]
    · intro pi hpi
      have hmempi := prev_instance_for_mem db u inst.period_start pi hpi
      have hinstmem : inst ∈ db.instances := List.mem_of_find?_eq_some hfind
      have hne : pi.id ≠ inst.id := by
        intro heq
        have hpieq : pi = inst :=
          List.inj_on_of_nodup_map hids hmempi.1 hinstmem heq
        rw [hpieq] at hmempi
        exact Int.lt_irrefl _ hmempi.2.2
      have hfilter : ((apply_fill_op db (FillOp.deleteAll inst.id u)).allocations).find?
          (fun x => decide (x.pay_cycle_instance_id = pi.id) &&
            decide (x.envelope_id = a.envelope_id)) =
          db.allocations.find? (fun x => decide (x.pay_cycle_instance_id = pi.id) &&
            decide (x.envelope_id = a.envelope_id)) := by
        show (db.allocations.filter (fun x =>
            !(decide (x.pay_cycle_instance_id = inst.id) && decide (x.user_id = u)))).find?
            (fun x => decide (x.pay_cycle_instance_id = pi.id) &&
              decide (x.envelope_id = a.envelope_id)) =
          db.allocations.find? (fun x => decide (x.pay_cycle_instance_id = pi.id) &&
            decide (x.envelope_id = a.envelope_id))
        apply find?_filter_of_imp
        intro x hx
        simp only [Bool.and_eq_true, decide_eq_true_eq] at hx
        simp [hx.1, hne]
      constructor
      · intro hnone'
        rw [hroll]
        unfold fill_rollover_amount
        rw [if_pos hr, hprev_eq, hpi]
        dsimp only
        rw [hfilter, hnone']
      · intro prev hprev'
        rw [hroll]
        unfold fill_rollover_amount
        rw [if_pos hr, hprev_eq, hpi]
        dsimp only
        rw [hfilter, hprev']

/-- Fixture for the C7 witness: a rollover envelope whose previous-period
allocation left `max 0 ((300 + 0) - 120) = 180` to carry in. -/
def c7_env : Envelope :=
  { id := 1, user_id := 1, name := "Save", emoji := "box", color := "#fff",
    target_amount := none, is_rollover := true, cookie_jar := 0,
    sort_order := 0, is_active := true }

def c7_inst1 : PayCycleInstance :=
  { id := 1, user_id := 1, pay_cycle_id := 1,
    period_start := ⟨2023, 9, 1⟩, period_end := ⟨2023, 9, 30⟩,
    expected_amount := 5000, actual_amount := some 5000,
    is_assumed := false, confirmed_at := some 7, rollover_processed := false }

def c7_inst2 : PayCycleInstance :=
  { id := 2, user_id := 1, pay_cycle_id := 1,
    period_start := ⟨2023, 10, 1⟩, period_end := ⟨2023, 10, 31⟩,
    expected_amount := 5000, actual_amount := none,
    is_assumed := true, confirmed_at := none, rollover_processed := false }

def c7_prev_alloc : Allocation :=
  { id := 5, user_id := 1, pay_cycle_instance_id := 1, envelope_id := 1,
    allocated_amount := 300, target_percentage := none,
    rollover_amount := 0, cached_spent := 120 }

def c7_db : SahodDB :=
  { envelopes := [c7_env], instances := [c7_inst1, c7_inst2],
    allocations := [c7_prev_alloc] }

def c7_items : List AllocationItem :=
  [{ envelope_id := 1, allocated_amount := 500, target_percentage := none }]

def c7_payload : Allocation :=
  { id := 20, user_id := 1, pay_cycle_instance_id := 2, envelope_id := 1,
    allocated_amount := 500, target_percentage := none,
    rollover_amount := fill_rollover_amount
      (apply_fill_op c7_db (FillOp.deleteAll c7_inst2.id 1)) 1 c7_inst2 c7_env 1,
    cached_spent := 0 }

/-- C7 witness: filling the current instance computes the carried-in
rollover `max 0 ((300 + 0) - 120)` from the preceding instance's
allocation, and it is non-negative. -/
theorem fill_rollover_in_spec_witness :
    fill_payloads (apply_fill_op c7_db (FillOp.deleteAll c7_inst2.id 1)) 1 c7_inst2
      c7_items 20 = [c7_payload] ∧
    0 ≤ c7_payload.rollover_amount ∧
    c7_payload.rollover_amount = max 0 (((300 : Rat) + 0) - 120) := by
  have hpl : fill_payloads (apply_fill_op c7_db (FillOp.deleteAll c7_inst2.id 1)) 1 c7_inst2
      c7_items 20 = [c7_payload] := rfl
  have h := fill_rollover_in_spec c7_db 1 2 c7_items 20 c7_inst2 rfl (by decide) c7_payload
    (by rw [hpl]; exact List.mem_singleton_self c7_payload)
  refine ⟨hpl, h.1, ?_⟩
  have h2 := h.2 c7_env rfl rfl
  have h3 := (h2.2 c7_inst1 rfl).2 c7_prev_alloc rfl
  rw [h3]
  norm_num [c7_prev_alloc]

/-!
## Recurring transaction poster (src/routers/pera.py, lines 1146-1272)

`process_pending_recurring_transactions` snapshots the user's active rules,
then for each rule walks the scheduled dates of the current month followed
by the previous month, skipping dates in the future, before the rule's
creation, at or before the snapshot's `last_posted_date`, or already
present in the ledger for `(rule, date)`; otherwise it inserts the ledger
entry and advances the stored `last_posted_date` to the posted date.
-/

/-- Row of `recurring_rules`. -/
structure RecurringRule where
  id : Nat
  user_id : Nat
  amount : Rat
  description : Option String
  category_id : Option Nat
  transaction_type : String
  frequency : String
  schedule_day : Int
  last_posted_date : Option Date
  created_at : Date
  is_active : Bool
deriving DecidableEq

/-- Row of `kaban_transactions` (the external ledger). -/
structure KabanTx where
  user_id : Nat
  category_id : Option Nat
  amount : Rat
  description : String
  transaction_type : String
  transaction_date : Date
  source : String
  recurring_rule_id : Option Nat
deriving DecidableEq

/-- The two ledger-relevant tables. -/
structure PeraDB where
  recurring_rules : List RecurringRule
  kaban_transactions : List KabanTx
deriving DecidableEq

/-- Embeds the `last_day` computation of `get_scheduled_dates_for_rule`
(`date(y, m+1, 1) - 1 day` for months before December, the literal 31 for
December — both equal the month's length). -/
def monthLastDayPera (check_year : Int) (check_month : Nat) : Nat :=
  if check_month < 12 then lastDay check_year check_month else 31

/-- Weekday of a date, Monday = 0 (Python's `date.weekday()`), by Zeller's
congruence. -/
def weekdayMon0 (y : Int) (m : Nat) (d : Nat) : Nat :=
  let mm : Int := if m ≤ 2 then (m : Int) + 12 else (m : Int)
  let yy : Int := if m ≤ 2 then y - 1 else y
  let K : Int := yy % 100
  let J : Int := yy / 100
  (((d : Int) + (13 * (mm + 1)) / 5 + K + K / 4 + J / 4 + 5 * J + 5) % 7).toNat

/-- Embeds `get_scheduled_dates_for_rule` from src/routers/pera.py
(lines 1146-1194). The empty list models both an unknown frequency and the
swallowed `ValueError` for out-of-range days; the weekly `while` loop is
the finitely many days `d0, d0+7, ...` within the month. -/
def get_scheduled_dates_for_rule (rule : RecurringRule) (check_month : Nat)
    (check_year : Int) : List Date :=
  let frequency := rule.frequency
  let schedule_day := rule.schedule_day
  if frequency = "monthly" then
    let last_day := monthLastDayPera check_year check_month
    let actual_day := min schedule_day (last_day : Int)
    if actual_day < 1 then [] else [⟨check_year, check_month, actual_day.toNat⟩]
  else if frequency = "bimonthly" then
    let last_day := monthLastDayPera check_year check_month
    let first_day := min schedule_day (last_day : Int)
    if first_day < 1 then []
    else
      let second_day := min (schedule_day + 15) (last_day : Int)
      if second_day ≠ first_day then
        [⟨check_year, check_month, first_day.toNat⟩,
         ⟨check_year, check_month, second_day.toNat⟩]
      else [⟨check_year, check_month, first_day.toNat⟩]
  else if frequency = "weekly" then
    let wd := weekdayMon0 check_year check_month 1
    let d0 := 1 + ((schedule_day - (wd : Int)) % 7).toNat
    (List.range 5).filterMap (fun k =>
      let dday := d0 + 7 * k
      if dday ≤ lastDay check_year check_month then
        some ⟨check_year, check_month, dday⟩
      else none)
  else []

/-- The `(year, month)` pairs checked by reconciliation: the current month,
then the previous month. -/
def months_to_check (today : Date) : List (Int × Nat) :=
  if today.month = 1 then [(today.year, 1), (today.year - 1, 12)]
  else [(today.year, today.month), (today.year, today.month - 1)]

/-- All candidate dates walked for one rule, in loop order. -/
def candidate_dates (rule : RecurringRule) (today : Date) : List Date :=
  (months_to_check today).foldr
    (fun ym acc => get_scheduled_dates_for_rule rule ym.2 ym.1 ++ acc) []

/-- The skip conditions of steps 1-3 evaluated against the rule snapshot:
future date, date before the rule's creation, or date at or before the
snapshot's `last_posted_date`. -/
def window_skip (today : Date) (rule : RecurringRule) (d : Date) : Bool :=
  decide (today < d) || decide (d < rule.created_at) ||
    (match rule.last_posted_date with
     | some lp => decide (d ≤ lp)
     | none => false)

/-- One ledger row matches the `(user, rule, date)` idempotency key. -/
def txMatches (u rid : Nat) (d : Date) (t : KabanTx) : Bool :=
  decide (t.user_id = u) && decide (t.recurring_rule_id = some rid) &&
    decide (t.transaction_date = d)

/-- The existence query of step 4. -/
def tx_exists (txs : List KabanTx) (u rid : Nat) (d : Date) : Bool :=
  txs.any (txMatches u rid d)

/-- Loop body for one scheduled date: skip (window or existing entry) or
insert the ledger entry and advance the stored `last_posted_date` of the
rule (update by rule id) to the posted date. `rule` is the snapshot read
before the loop. -/
def post_one (u : Nat) (today : Date) (rule : RecurringRule) (st : PeraDB) (d : Date) :
    PeraDB :=
  if window_skip today rule d then st
  else if tx_exists st.kaban_transactions u rule.id d then st
  else
    let tx : KabanTx :=
      { user_id := u, category_id := rule.category_id, amount := rule.amount,
        description :=
          match rule.description with
          | some s => if s = "" then "Recurring Income" else s
          | none => "Recurring Income",
        transaction_type := rule.transaction_type, transaction_date := d,
        source := "recurring", recurring_rule_id := some rule.id }
    { recurring_rules := st.recurring_rules.map (fun r =>
        if r.id = rule.id then { r with last_posted_date := some d } else r),
      kaban_transactions := st.kaban_transactions ++ [tx] }

/-- Process all candidate dates of one rule, in order. -/
def process_rule (u : Nat) (today : Date) (rule : RecurringRule) (st : PeraDB) : PeraDB :=
  (candidate_dates rule today).foldl (post_one u today rule) st

/-- Embeds `process_pending_recurring_transactions`: snapshot the user's
active rules, then run the per-rule loop over the evolving store. -/
def process_pending_recurring_transactions (u : Nat) (today : Date) (db : PeraDB) :
    PeraDB :=
  let rules := db.recurring_rules.filter (fun r => decide (r.user_id = u) && r.is_active)
  rules.foldl (fun st r => process_rule u today r st) db

/-- Number of ledger entries for one `(user, rule, date)` key. -/
def tx_count (txs : List KabanTx) (u rid : Nat) (d : Date) : Nat :=
  (txs.filter (txMatches u rid d)).length

/-- At most one ledger entry per `(user, rule, date)` key. -/
def no_dup_txs (txs : List KabanTx) : Prop :=
  ∀ u rid d, tx_count txs u rid d ≤ 1

theorem tx_exists_false_count {txs : List KabanTx} {u rid : Nat} {d : Date}
    (h : tx_exists txs u rid d = false) : tx_count txs u rid d = 0 := by
  unfold tx_exists at h
  unfold tx_count
  rw [List.length_eq_zero]
  exact List.filter_eq_nil_iff.mpr (by simpa using List.any_eq_false.mp h)

theorem tx_exists_of_count_pos {txs : List KabanTx} {u rid : Nat} {d : Date}
    (h : 1 ≤ tx_count txs u rid d) : tx_exists txs u rid d = true := by
  by_contra hne
  have h0 : tx_exists txs u rid d = false := by
    revert hne; cases tx_exists txs u rid d <;> simp
  rw [tx_exists_false_count h0] at h
  omega

theorem tx_exists_of_mem {txs : List KabanTx} {u rid : Nat} {d : Date} {t : KabanTx}
    (hm : t ∈ txs) (ht : txMatches u rid d t = true) : tx_exists txs u rid d = true :=
  List.any_eq_true.mpr ⟨t, hm, ht⟩

theorem count_pos_of_tx_exists {txs : List KabanTx} {u rid : Nat} {d : Date}
    (h : tx_exists txs u rid d = true) : 1 ≤ tx_count txs u rid d := by
  obtain ⟨t, hm, ht⟩ := List.any_eq_true.mp h
  unfold tx_count
  have : t ∈ txs.filter (txMatches u rid d) := List.mem_filter.mpr ⟨hm, ht⟩
  exact List.length_pos.mpr (List.ne_nil_of_mem this)

theorem post_one_txs_mono (u : Nat) (today : Date) (r : RecurringRule) (st : PeraDB)
    (d : Date) : ∀ t ∈ st.kaban_transactions, t ∈ (post_one u today r st d).kaban_transactions := by
  intro t ht
  unfold post_one
  split
  · exact ht
  · split
    · exact ht
    · exact List.mem_append_left _ ht

theorem post_one_count_le_one (u : Nat) (today : Date) (r : RecurringRule) (st : PeraDB)
    (d : Date) (u' rid' : Nat) (d' : Date)
    (h : tx_count st.kaban_transactions u' rid' d' ≤ 1) :
    tx_count (post_one u today r st d).kaban_transactions u' rid' d' ≤ 1 := by
  unfold post_one
  split
  · exact h
  · split
    · exact h
    · rename_i hskip hex
      have hex' : tx_exists st.kaban_transactions u r.id d = false := by
        revert hex; cases tx_exists st.kaban_transactions u r.id d <;> simp
      unfold tx_count at h ⊢
      dsimp only
      rw [List.filter_append, List.length_append]
      by_cases hm : txMatches u' rid' d'
          { user_id := u, category_id := r.category_id, amount := r.amount,
            description :=
              match r.description with
              | some s => if s = "" then "Recurring Income" else s
              | none => "Recurring Income",
            transaction_type := r.transaction_type, transaction_date := d,
            source := "recurring", recurring_rule_id := some r.id } = true
      · have hkey : u = u' ∧ r.id = rid' ∧ d = d' := by
          unfold txMatches at hm
          simp only [Bool.and_eq_true, decide_eq_true_eq] at hm
          exact ⟨hm.1.1, Option.some.inj hm.1.2, hm.2⟩
        obtain ⟨rfl, hrid, rfl⟩ := hkey
        subst hrid
        have h0 : tx_count st.kaban_transactions u r.id d = 0 := tx_exists_false_count hex'
        unfold tx_count at h0
        rw [h0, List.filter_cons, if_pos hm, List.filter_nil]
        simp
      · rw [List.filter_cons, if_neg hm, List.filter_nil]
        simpa using h

theorem Date.lt_trans {a b c : Date} (h1 : a < b) (h2 : b < c) : a < c :=
  Int.lt_trans h1 h2

theorem fold_dates_txs_mono (u : Nat) (today : Date) (r : RecurringRule) :
    ∀ (ds : List Date) (st : PeraDB) (t : KabanTx),
      t ∈ st.kaban_transactions →
      t ∈ (ds.foldl (post_one u today r) st).kaban_transactions := by
  intro ds
  induction ds with
  | nil => intro st t ht; exact ht
  | cons a tl ih =>
    intro st t ht
    exact ih (post_one u today r st a) t (post_one_txs_mono u today r st a t ht)

theorem fold_dates_count_le_one (u : Nat) (today : Date) (r : RecurringRule) :
    ∀ (ds : List Date) (st : PeraDB) (u' rid' : Nat) (d' : Date),
      tx_count st.kaban_transactions u' rid' d' ≤ 1 →
      tx_count ((ds.foldl (post_one u today r) st)).kaban_transactions u' rid' d' ≤ 1 := by
  intro ds
  induction ds with
  | nil => intro st u' rid' d' h; exact h
  | cons a tl ih =>
    intro st u' rid' d' h
    exact ih (post_one u today r st a) u' rid' d'
      (post_one_count_le_one u today r st a u' rid' d' h)

theorem tx_exists_fold_mono (u : Nat) (today : Date) (r : RecurringRule)
    (ds : List Date) (st : PeraDB) (u' rid' : Nat) (d' : Date)
    (h : tx_exists st.kaban_transactions u' rid' d' = true) :
    tx_exists ((ds.foldl (post_one u today r) st)).kaban_transactions u' rid' d' = true := by
  obtain ⟨t, hm, ht⟩ := List.any_eq_true.mp h
  exact tx_exists_of_mem (fold_dates_txs_mono u today r ds st t hm) ht

theorem post_one_covers (u : Nat) (today : Date) (r : RecurringRule) (st : PeraDB)
    (d : Date) (hskip : window_skip today r d = false) :
    tx_exists (post_one u today r st d).kaban_transactions u r.id d = true := by
  unfold post_one
  rw [hskip, if_neg Bool.false_ne_true]
  by_cases hex : tx_exists st.kaban_transactions u r.id d = true
  · rw [if_pos hex]
    exact hex
  · rw [if_neg hex]
    dsimp only
    apply tx_exists_of_mem (t :=
      { user_id := u, category_id := r.category_id, amount := r.amount,
        description :=
          match r.description with
          | some s => if s = "" then "Recurring Income" else s
          | none => "Recurring Income",
        transaction_type := r.transaction_type, transaction_date := d,
        source := "recurring", recurring_rule_id := some r.id })
    · exact List.mem_append_right _ (List.mem_singleton_self _)
    · unfold txMatches
      simp

theorem fold_dates_covers (u : Nat) (today : Date) (r : RecurringRule) :
    ∀ (ds : List Date) (st : PeraDB) (d : Date),
      d ∈ ds → window_skip today r d = false →
      tx_exists ((ds.foldl (post_one u today r) st)).kaban_transactions u r.id d = true := by
  intro ds
  induction ds with
  | nil => intro st d hd; cases hd
  | cons a tl ih =>
    intro st d hd hskip
    rcases List.mem_cons.mp hd with rfl | htl
    · exact tx_exists_fold_mono u today r tl _ u r.id d
        (post_one_covers u today r st d hskip)
    · exact ih _ d htl hskip

theorem fold_dates_noop (u : Nat) (today : Date) (r : RecurringRule) :
    ∀ (ds : List Date) (st : PeraDB),
      (∀ d ∈ ds, window_skip today r d = true ∨
        tx_exists st.kaban_transactions u r.id d = true) →
      ds.foldl (post_one u today r) st = st := by
  intro ds
  induction ds with
  | nil => intro st _; rfl
  | cons a tl ih =>
    intro st h
    have hstep : post_one u today r st a = st := by
      unfold post_one
      rcases h a (List.mem_cons_self a tl) with hs | he
      · rw [hs]
        rfl
      · rw [he]
        split
        · rfl
        · rfl
    have : (a :: tl).foldl (post_one u today r) st =
        tl.foldl (post_one u today r) (post_one u today r st a) := rfl
    rw [this, hstep]
    exact ih st (fun d hd => h d (List.mem_cons_of_mem a hd))

/-- The stored `last_posted_date` either kept its old value or was advanced
strictly past it. -/
def LpAdvanced (lp0 lp : Option Date) : Prop :=
  lp = lp0 ∨ ∃ v, lp = some v ∧ ∀ w, lp0 = some w → w < v

theorem lpAdvanced_refl (lp : Option Date) : LpAdvanced lp lp := Or.inl (Eq.refl lp)

theorem lpAdvanced_trans {a b c : Option Date} (h1 : LpAdvanced a b)
    (h2 : LpAdvanced b c) : LpAdvanced a c := by
  rcases h2 with rfl | ⟨v, rfl, hv⟩
  · exact h1
  · rcases h1 with rfl | ⟨w', rfl, hw'⟩
    · exact Or.inr ⟨v, rfl, hv⟩
    · exact Or.inr ⟨v, rfl, fun w hw => Date.lt_trans (hw' w hw) (hv w' rfl)⟩

/-- Two rule rows equal except possibly in `last_posted_date`. -/
def same_rule_mod_lp (a b : RecurringRule) : Prop :=
  b = { a with last_posted_date := b.last_posted_date }

theorem same_rule_refl (a : RecurringRule) : same_rule_mod_lp a a := by
  unfold same_rule_mod_lp
  rfl

theorem same_rule_trans {a b c : RecurringRule} (h1 : same_rule_mod_lp a b)
    (h2 : same_rule_mod_lp b c) : same_rule_mod_lp a c := by
  unfold same_rule_mod_lp at h1 h2 ⊢
  rw [h1] at h2
  exact h2

/-- One reconciliation pass only rewrites `last_posted_date`, strictly past
the old value. -/
def RuleEvolve (a b : RecurringRule) : Prop :=
  same_rule_mod_lp a b ∧ LpAdvanced a.last_posted_date b.last_posted_date

theorem ruleEvolve_refl (a : RecurringRule) : RuleEvolve a a :=
  ⟨same_rule_refl a, lpAdvanced_refl _⟩

theorem ruleEvolve_trans {a b c : RecurringRule} (h1 : RuleEvolve a b)
    (h2 : RuleEvolve b c) : RuleEvolve a c :=
  ⟨same_rule_trans h1.1 h2.1, lpAdvanced_trans h1.2 h2.2⟩

/-- How one rule's date loop rewrites an arbitrary stored rule row: rows
with another id are untouched; the row with the processed id is either
untouched or stamped with a posted date that passed the window checks. -/
def StepEvolve (today : Date) (r : RecurringRule) (x y : RecurringRule) : Prop :=
  (x.id ≠ r.id → y = x) ∧
  (x.id = r.id → y = x ∨ ∃ dd, y = { x with last_posted_date := some dd } ∧
    window_skip today r dd = false)

theorem stepEvolve_refl (today : Date) (r x : RecurringRule) : StepEvolve today r x x :=
  ⟨fun _ => rfl, fun _ => Or.inl rfl⟩

theorem stepEvolve_id_eq {today : Date} {r x y : RecurringRule}
    (h : StepEvolve today r x y) : y.id = x.id := by
  by_cases hx : x.id = r.id
  · rcases h.2 hx with rfl | ⟨dd, rfl, _⟩
    · rfl
    · rfl
  · rw [h.1 hx]

theorem stepEvolve_trans {today : Date} {r : RecurringRule} {x y z : RecurringRule}
    (h1 : StepEvolve today r x y) (h2 : StepEvolve today r y z) :
    StepEvolve today r x z := by
  by_cases hx : x.id = r.id
  · refine ⟨fun hne => absurd hx hne, fun _ => ?_⟩
    have hy : y.id = r.id := (stepEvolve_id_eq h1).trans hx
    rcases h1.2 hx with rfl | ⟨d1, rfl, hd1⟩
    · exact h2.2 hx
    · rcases h2.2 hy with rfl | ⟨d2, rfl, hd2⟩
      · exact Or.inr ⟨d1, rfl, hd1⟩
      · exact Or.inr ⟨d2, rfl, hd2⟩
  · have hy : y = x := h1.1 hx
    subst hy
    refine ⟨fun _ => h2.1 hx, fun heq => absurd heq hx⟩
  
theorem post_one_rules_rel (u : Nat) (today : Date) (r : RecurringRule) (st : PeraDB)
    (d : Date) :
    List.Forall₂ (StepEvolve today r) st.recurring_rules
      (post_one u today r st d).recurring_rules := by
  unfold post_one
  split
  · exact List.forall₂_same.mpr (fun x _ => stepEvolve_refl today r x)
  · split
    · exact List.forall₂_same.mpr (fun x _ => stepEvolve_refl today r x)
    · rename_i hskip hex
      have hskip' : window_skip today r d = false := by
        revert hskip; cases window_skip today r d <;> simp
      dsimp only
      rw [List.forall₂_map_right_iff]
      apply List.forall₂_same.mpr
      intro x _
      constructor
      · intro hne
        rw [if_neg hne]
      · intro heq
        rw [if_pos heq]
        exact Or.inr ⟨d, rfl, hskip'⟩

theorem forall₂_step_trans {today : Date} {r : RecurringRule} :
    ∀ {l1 l2 l3 : List RecurringRule},
      List.Forall₂ (StepEvolve today r) l1 l2 →
      List.Forall₂ (StepEvolve today r) l2 l3 →
      List.Forall₂ (StepEvolve today r) l1 l3 := by
  intro l1 l2 l3 h1 h2
  induction h1 generalizing l3 with
  | nil =>
    cases h2
    exact List.Forall₂.nil
  | cons hab htl ih =>
    cases h2 with
    | cons hbc htl2 =>
      exact List.Forall₂.cons (stepEvolve_trans hab hbc) (ih htl2)

theorem fold_dates_rules_rel (u : Nat) (today : Date) (r : RecurringRule) :
    ∀ (ds : List Date) (st : PeraDB),
      List.Forall₂ (StepEvolve today r) st.recurring_rules
        ((ds.foldl (post_one u today r) st)).recurring_rules := by
  intro ds
  induction ds with
  | nil => intro st; exact List.forall₂_same.mpr (fun x _ => stepEvolve_refl today r x)
  | cons a tl ih =>
    intro st
    exact forall₂_step_trans (post_one_rules_rel u today r st a) (ih (post_one u today r st a))

theorem forall₂_trans_of {α : Type} {R : α → α → Prop}
    (hR : ∀ {a b c : α}, R a b → R b c → R a c) :
    ∀ {l1 l2 l3 : List α}, List.Forall₂ R l1 l2 → List.Forall₂ R l2 l3 →
      List.Forall₂ R l1 l3 := by
  intro l1 l2 l3 h1 h2
  induction h1 generalizing l3 with
  | nil =>
    cases h2
    exact List.Forall₂.nil
  | cons hab htl ih =>
    cases h2 with
    | cons hbc htl2 =>
      exact List.Forall₂.cons (hR hab hbc) (ih htl2)

theorem forall₂_mem_right {α : Type} {R : α → α → Prop} :
    ∀ {l1 l2 : List α}, List.Forall₂ R l1 l2 → ∀ y ∈ l2, ∃ x ∈ l1, R x y := by
  intro l1 l2 h
  induction h with
  | nil => intro y hy; cases hy
  | cons hab htl ih =>
    intro y hy
    rcases List.mem_cons.mp hy with rfl | hy'
    · exact ⟨_, List.mem_cons_self _ _, hab⟩
    · obtain ⟨x, hx, hr⟩ := ih y hy'
      exact ⟨x, List.mem_cons_of_mem _ hx, hr⟩

theorem same_rule_created_eq {a b : RecurringRule} (h : same_rule_mod_lp a b) :
    b.created_at = a.created_at := by
  unfold same_rule_mod_lp at h
  rw [h]

theorem same_rule_id_eq {a b : RecurringRule} (h : same_rule_mod_lp a b) :
    b.id = a.id := by
  unfold same_rule_mod_lp at h
  rw [h]

theorem same_rule_user_eq {a b : RecurringRule} (h : same_rule_mod_lp a b) :
    b.user_id = a.user_id := by
  unfold same_rule_mod_lp at h
  rw [h]

theorem same_rule_active_eq {a b : RecurringRule} (h : same_rule_mod_lp a b) :
    b.is_active = a.is_active := by
  unfold same_rule_mod_lp at h
  rw [h]

theorem same_rule_frequency_eq {a b : RecurringRule} (h : same_rule_mod_lp a b) :
    b.frequency = a.frequency := by
  unfold same_rule_mod_lp at h
  rw [h]

theorem same_rule_schedule_eq {a b : RecurringRule} (h : same_rule_mod_lp a b) :
    b.schedule_day = a.schedule_day := by
  unfold same_rule_mod_lp at h
  rw [h]

theorem window_skip_true_iff (today : Date) (r : RecurringRule) (d : Date) :
    window_skip today r d = true ↔
      (today < d ∨ d < r.created_at ∨
        ∃ w, r.last_posted_date = some w ∧ d ≤ w) := by
  unfold window_skip
  rcases hlp : r.last_posted_date with _ | w
  · simp [hlp]
  · simp [hlp, or_assoc]

theorem window_skip_false_lp {today : Date} {r : RecurringRule} {d : Date}
    (h : window_skip today r d = false) :
    ∀ w, r.last_posted_date = some w → w < d := by
  intro w hw
  have hnot : ¬ window_skip today r d = true := by rw [h]; simp
  rw [window_skip_true_iff] at hnot
  push_neg at hnot
  have := hnot.2.2 w hw
  exact Int.not_le.mp this

theorem forall₂_step_to_evolve {today : Date} {r : RecurringRule} :
    ∀ (l1 l2 : List RecurringRule),
      List.Forall₂ (StepEvolve today r) l1 l2 →
      (∀ x ∈ l1, x.id = r.id → x.last_posted_date = r.last_posted_date) →
      List.Forall₂ RuleEvolve l1 l2 := by
  intro l1
  induction l1 with
  | nil =>
    intro l2 h _
    cases h
    exact List.Forall₂.nil
  | cons x t1 ih =>
    intro l2 h hag
    cases h with
    | cons hab htl =>
      refine List.Forall₂.cons ?_ (ih _ htl (fun z hz => hag z (List.mem_cons_of_mem _ hz)))
      by_cases hx : x.id = r.id
      · rcases hab.2 hx with hyx | ⟨dd, hddy, hdd⟩
        · rw [hyx]
          exact ruleEvolve_refl x
        · rw [hddy]
          refine ⟨?_, ?_⟩
          · unfold same_rule_mod_lp
            rfl
          · refine Or.inr ⟨dd, rfl, ?_⟩
            intro w hw
            apply window_skip_false_lp hdd
            rw [← hag x (List.mem_cons_self x t1) hx]
            exact hw
      · rw [hab.1 hx]
        exact ruleEvolve_refl x

theorem get_scheduled_congr {r r' : RecurringRule} (hf : r'.frequency = r.frequency)
    (hs : r'.schedule_day = r.schedule_day) (m : Nat) (y : Int) :
    get_scheduled_dates_for_rule r' m y = get_scheduled_dates_for_rule r m y := by
  unfold get_scheduled_dates_for_rule
  rw [hf, hs]

theorem candidate_dates_congr {r r' : RecurringRule} (hf : r'.frequency = r.frequency)
    (hs : r'.schedule_day = r.schedule_day) (today : Date) :
    candidate_dates r' today = candidate_dates r today := by
  unfold candidate_dates
  induction months_to_check today with
  | nil => rfl
  | cons ym tl ih =>
    dsimp only [List.foldr]
    rw [ih, get_scheduled_congr hf hs]

theorem run_count (u : Nat) (today : Date) :
    ∀ (rs : List RecurringRule) (st : PeraDB) (u' rid' : Nat) (d' : Date),
      tx_count st.kaban_transactions u' rid' d' ≤ 1 →
      tx_count ((rs.foldl (fun s r => process_rule u today r s) st)).kaban_transactions
        u' rid' d' ≤ 1 := by
  intro rs
  induction rs with
  | nil => intro st u' rid' d' h; exact h
  | cons r0 tl ih =>
    intro st u' rid' d' h
    exact ih (process_rule u today r0 st) u' rid' d'
      (fold_dates_count_le_one u today r0 (candidate_dates r0 today) st u' rid' d' h)

theorem run_txs_mono (u : Nat) (today : Date) :
    ∀ (rs : List RecurringRule) (st : PeraDB) (t : KabanTx),
      t ∈ st.kaban_transactions →
      t ∈ ((rs.foldl (fun s r => process_rule u today r s) st)).kaban_transactions := by
  intro rs
  induction rs with
  | nil => intro st t ht; exact ht
  | cons r0 tl ih =>
    intro st t ht
    exact ih (process_rule u today r0 st) t
      (fold_dates_txs_mono u today r0 (candidate_dates r0 today) st t ht)

theorem run_tx_exists_mono (u : Nat) (today : Date) (rs : List RecurringRule)
    (st : PeraDB) (u' rid' : Nat) (d' : Date)
    (h : tx_exists st.kaban_transactions u' rid' d' = true) :
    tx_exists ((rs.foldl (fun s r => process_rule u today r s) st)).kaban_transactions
      u' rid' d' = true := by
  obtain ⟨t, hm, ht⟩ := List.any_eq_true.mp h
  exact tx_exists_of_mem (run_txs_mono u today rs st t hm) ht

theorem run_master (u : Nat) (today : Date) :
    ∀ (rs : List RecurringRule) (st : PeraDB),
      (rs.map (fun r => r.id)).Nodup →
      (∀ r ∈ rs, ∀ x ∈ st.recurring_rules, x.id = r.id →
        x.last_posted_date = r.last_posted_date) →
      List.Forall₂ RuleEvolve st.recurring_rules
        ((rs.foldl (fun s r => process_rule u today r s) st)).recurring_rules ∧
      (∀ r ∈ rs, ∀ d ∈ candidate_dates r today, window_skip today r d = false →
        tx_exists ((rs.foldl (fun s r => process_rule u today r s) st)).kaban_transactions
          u r.id d = true) := by
  intro rs
  induction rs with
  | nil =>
    intro st _ _
    refine ⟨List.forall₂_same.mpr (fun x _ => ruleEvolve_refl x), ?_⟩
    intro r hr
    cases hr
  | cons r0 tl ih =>
    intro st hnd hag
    have hnd' := List.nodup_cons.mp hnd
    have hstep : List.Forall₂ (StepEvolve today r0) st.recurring_rules
        (process_rule u today r0 st).recurring_rules :=
      fold_dates_rules_rel u today r0 (candidate_dates r0 today) st
    have hev1 : List.Forall₂ RuleEvolve st.recurring_rules
        (process_rule u today r0 st).recurring_rules :=
      forall₂_step_to_evolve _ _ hstep
        (fun x hx hid => hag r0 (List.mem_cons_self r0 tl) x hx hid)
    have hag' : ∀ r ∈ tl, ∀ x ∈ (process_rule u today r0 st).recurring_rules,
        x.id = r.id → x.last_posted_date = r.last_posted_date := by
      intro r hr x hx hid
      obtain ⟨x0, hx0, hse⟩ := forall₂_mem_right hstep x hx
      have hx0id : x.id = x0.id := stepEvolve_id_eq hse
      have hrne : r.id ≠ r0.id := by
        intro heq
        have hmem : r0.id ∈ tl.map (fun r => r.id) := by
          rw [← heq]
          exact List.mem_map.mpr ⟨r, hr, rfl⟩
        exact hnd'.1 hmem
      have hne : x0.id ≠ r0.id := by
        rw [← hx0id, hid]
        exact hrne
      have hxx0 : x = x0 := hse.1 hne
      rw [hxx0]
      exact hag r (List.mem_cons_of_mem r0 hr) x0 hx0 (by rw [← hx0id, hid])
    obtain ⟨ihev, ihcov⟩ := ih (process_rule u today r0 st) hnd'.2 hag'
    have hfold : (r0 :: tl).foldl (fun s r => process_rule u today r s) st =
        tl.foldl (fun s r => process_rule u today r s) (process_rule u today r0 st) := rfl
    rw [hfold]
    refine ⟨forall₂_trans_of (R := RuleEvolve) (fun h1 h2 => ruleEvolve_trans h1 h2)
      hev1 ihev, ?_⟩
    intro r hr d hd hskip
    rcases List.mem_cons.mp hr with rfl | hrtl
    · exact run_tx_exists_mono u today tl _ u r.id d
        (fold_dates_covers u today r (candidate_dates r today) st d hd hskip)
    · exact ihcov r hrtl d hd hskip

theorem window_skip_mono {today d : Date} {r r' : RecurringRule}
    (hsame : same_rule_mod_lp r r')
    (hlp : LpAdvanced r.last_posted_date r'.last_posted_date)
    (h : window_skip today r d = true) : window_skip today r' d = true := by
  rw [window_skip_true_iff] at h ⊢
  rcases h with h | h | ⟨w, hw, hdw⟩
  · exact Or.inl h
  · refine Or.inr (Or.inl ?_)
    rw [same_rule_created_eq hsame]
    exact h
  · rcases hlp with heq | ⟨v, hv, hvw⟩
    · refine Or.inr (Or.inr ⟨w, ?_, hdw⟩)
      rw [heq, hw]
    · refine Or.inr (Or.inr ⟨v, hv, ?_⟩)
      exact Date.le_of_lt (Date.lt_of_le_of_lt hdw (hvw w hw))

theorem forall₂_filter {α : Type} {R : α → α → Prop} (p : α → Bool)
    (hp : ∀ a b, R a b → p b = p a) :
    ∀ {l1 l2 : List α}, List.Forall₂ R l1 l2 →
      List.Forall₂ R (l1.filter p) (l2.filter p) := by
  intro l1 l2 h
  induction h with
  | nil => exact List.Forall₂.nil
  | cons hab htl ih =>
    rename_i a b t1 t2
    by_cases hpa : p a = true
    · rw [List.filter_cons_of_pos hpa, List.filter_cons_of_pos (by rw [hp a b hab]; exact hpa)]
      exact List.Forall₂.cons hab ih
    · rw [List.filter_cons_of_neg hpa, List.filter_cons_of_neg (by rw [hp a b hab]; exact hpa)]
      exact ih

theorem fold_rules_noop (u : Nat) (today : Date) (db1 : PeraDB) :
    ∀ rs : List RecurringRule,
      (∀ r ∈ rs, process_rule u today r db1 = db1) →
      rs.foldl (fun s r => process_rule u today r s) db1 = db1 := by
  intro rs
  induction rs with
  | nil => intro _; rfl
  | cons r0 tl ih =>
    intro h
    have hstep : (r0 :: tl).foldl (fun s r => process_rule u today r s) db1 =
        tl.foldl (fun s r => process_rule u today r s) (process_rule u today r0 db1) := rfl
    rw [hstep, h r0 (List.mem_cons_self r0 tl)]
    exact ih (fun r hr => h r (List.mem_cons_of_mem r0 hr))

/-- C1: with unique rule ids and a ledger holding at most one entry per
`(rule, date)`, reconciliation is idempotent — a second run over the same
date window changes nothing — the no-duplicates invariant is preserved, and
after one run the ledger holds exactly one entry for every scheduled date
of every active rule that passes the window checks. The dedup rests on the
existence query keyed by `(rule id, scheduled date)` run before each
insert. -/
theorem recurring_reconcile_spec (u : Nat) (today : Date) (db : PeraDB)
    (hids : (db.recurring_rules.map (fun r => r.id)).Nodup)
    (hnd : no_dup_txs db.kaban_transactions) :
    process_pending_recurring_transactions u today
        (process_pending_recurring_transactions u today db) =
      process_pending_recurring_transactions u today db ∧
    no_dup_txs (process_pending_recurring_transactions u today db).kaban_transactions ∧
    (∀ r ∈ db.recurring_rules, r.user_id = u → r.is_active = true →
      ∀ d ∈ candidate_dates r today, window_skip today r d = false →
        tx_count (process_pending_recurring_transactions u today db).kaban_transactions
          u r.id d = 1) := by
  have hnd1 : ((db.recurring_rules.filter
      (fun r => decide (r.user_id = u) && r.is_active)).map (fun r => r.id)).Nodup :=
    hids.sublist ((List.filter_sublist db.recurring_rules).map (fun r => r.id))
  have hag1 : ∀ r ∈ db.recurring_rules.filter
      (fun r => decide (r.user_id = u) && r.is_active),
      ∀ x ∈ db.recurring_rules, x.id = r.id →
        x.last_posted_date = r.last_posted_date := by
    intro r hr x hx hid
    have hr' : r ∈ db.recurring_rules := (List.mem_filter.mp hr).1
    have hxr : x = r := List.inj_on_of_nodup_map hids hx hr' hid
    rw [hxr]
  obtain ⟨hev, hcov⟩ := run_master u today
    (db.recurring_rules.filter (fun r => decide (r.user_id = u) && r.is_active)) db hnd1 hag1
  have hdb1 : process_pending_recurring_transactions u today db =
      (db.recurring_rules.filter (fun r => decide (r.user_id = u) && r.is_active)).foldl
        (fun s r => process_rule u today r s) db := rfl
  have hflt : List.Forall₂ RuleEvolve
      (db.recurring_rules.filter (fun r => decide (r.user_id = u) && r.is_active))
      ((process_pending_recurring_transactions u today db).recurring_rules.filter
        (fun r => decide (r.user_id = u) && r.is_active)) := by
    rw [hdb1]
    exact forall₂_filter _ (fun a b hab => by rw [same_rule_user_eq hab.1, same_rule_active_eq hab.1]) hev
  refine ⟨?_, ?_, ?_⟩
  · have hnoop : ∀ r' ∈ (process_pending_recurring_transactions u today db).recurring_rules.filter
        (fun r => decide (r.user_id = u) && r.is_active),
        process_rule u today r' (process_pending_recurring_transactions u today db) =
          process_pending_recurring_transactions u today db := by
      intro r' hr'
      obtain ⟨r, hrmem, hrr⟩ := forall₂_mem_right hflt r' hr'
      unfold process_rule
      rw [candidate_dates_congr (same_rule_frequency_eq hrr.1) (same_rule_schedule_eq hrr.1)]
      apply fold_dates_noop
      intro d hd
      by_cases hsk : window_skip today r d = true
      · exact Or.inl (window_skip_mono hrr.1 hrr.2 hsk)
      · have hsk' : window_skip today r d = false := by
          revert hsk; cases window_skip today r d <;> simp
        refine Or.inr ?_
        rw [same_rule_id_eq hrr.1]
        exact hcov r hrmem d hd hsk'
    exact fold_rules_noop u today _ _ hnoop
  · intro u' rid' d'
    exact run_count u today
      (db.recurring_rules.filter (fun r => decide (r.user_id = u) && r.is_active)) db
      u' rid' d' (hnd u' rid' d')
  · intro r hr hu ha d hd hskip
    have hrmem : r ∈ db.recurring_rules.filter
        (fun r => decide (r.user_id = u) && r.is_active) :=
      List.mem_filter.mpr ⟨hr, by simp [hu, ha]⟩
    have hge := count_pos_of_tx_exists (hcov r hrmem d hd hskip)
    have hle := run_count u today
      (db.recurring_rules.filter (fun r => decide (r.user_id = u) && r.is_active)) db
      u r.id d (hnd u r.id d)
    rw [hdb1]
    omega

/-- Fixture for C1/C2: one active monthly rule on day 5, never posted,
created 2023-01-01; empty ledger; reconciliation runs on 2023-10-12. -/
def c12_rule : RecurringRule :=
  { id := 1, user_id := 1, amount := 100, description := some "Salary",
    category_id := none, transaction_type := "income", frequency := "monthly",
    schedule_day := 5, last_posted_date := none, created_at := ⟨2023, 1, 1⟩,
    is_active := true }

def c12_db : PeraDB := { recurring_rules := [c12_rule], kaban_transactions := [] }

/-- C1 witness: the idempotence, no-duplicates and exactly-one-per-date
conclusions at the concrete fixture. -/
theorem recurring_reconcile_spec_witness :
    process_pending_recurring_transactions 1 ⟨2023, 10, 12⟩
        (process_pending_recurring_transactions 1 ⟨2023, 10, 12⟩ c12_db) =
      process_pending_recurring_transactions 1 ⟨2023, 10, 12⟩ c12_db ∧
    no_dup_txs
      (process_pending_recurring_transactions 1 ⟨2023, 10, 12⟩ c12_db).kaban_transactions ∧
    (∀ r ∈ c12_db.recurring_rules, r.user_id = 1 → r.is_active = true →
      ∀ d ∈ candidate_dates r ⟨2023, 10, 12⟩, window_skip ⟨2023, 10, 12⟩ r d = false →
        tx_count
          (process_pending_recurring_transactions 1 ⟨2023, 10, 12⟩ c12_db).kaban_transactions
          1 r.id d = 1) :=
  recurring_reconcile_spec 1 ⟨2023, 10, 12⟩ c12_db (by decide)
    (by intro a b c; show (List.filter (txMatches a b c) ([] : List KabanTx)).length ≤ 1; simp)

/-- The stored `last_posted_date` of one rule. -/
def rule_lp (db : PeraDB) (rid : Nat) : Option Date :=
  match db.recurring_rules.find? (fun r => decide (r.id = rid)) with
  | some r => r.last_posted_date
  | none => none

/-- C2 counterexample: reconciliation walks the current month before the
previous month, so on 2023-10-12 the fixture rule first posts 2023-10-05
(storing it as `last_posted_date`) and then backfills 2023-09-05, storing
the earlier date over the later one — `last_posted_date` is set to a date
earlier than a value it previously held, within a single run. -/
theorem last_posted_date_regresses :
    candidate_dates c12_rule ⟨2023, 10, 12⟩ = [⟨2023, 10, 5⟩, ⟨2023, 9, 5⟩] ∧
    rule_lp (post_one 1 ⟨2023, 10, 12⟩ c12_rule c12_db ⟨2023, 10, 5⟩) 1 =
      some ⟨2023, 10, 5⟩ ∧
    rule_lp (post_one 1 ⟨2023, 10, 12⟩ c12_rule
      (post_one 1 ⟨2023, 10, 12⟩ c12_rule c12_db ⟨2023, 10, 5⟩) ⟨2023, 9, 5⟩) 1 =
      some ⟨2023, 9, 5⟩ ∧
    rule_lp (process_pending_recurring_transactions 1 ⟨2023, 10, 12⟩ c12_db) 1 =
      some ⟨2023, 9, 5⟩ ∧
    ((⟨2023, 9, 5⟩ : Date) < ⟨2023, 10, 5⟩) := by
  refine ⟨?_, ?_, ?_, ?_, ?_⟩ <;> decide

/-- C2 amended: during a single run, every value the loop stores into a
rule's `last_posted_date` is strictly later than the rule's
`last_posted_date` as of the start of the run (or the field is left
unchanged) — this holds after any prefix of the rule's date loop — but
successive stores within one run need not increase, as the counterexample
shows. -/
theorem last_posted_advances_within_run (u : Nat) (today : Date) (r : RecurringRule)
    (st : PeraDB)
    (hag : ∀ x ∈ st.recurring_rules, x.id = r.id →
      x.last_posted_date = r.last_posted_date)
    (ds1 ds2 : List Date) (_hsplit : candidate_dates r today = ds1 ++ ds2) :
    ∀ x ∈ (ds1.foldl (post_one u today r) st).recurring_rules, x.id = r.id →
      LpAdvanced r.last_posted_date x.last_posted_date := by
  intro x hx hid
  have hstep := fold_dates_rules_rel u today r ds1 st
  have hev := forall₂_step_to_evolve _ _ hstep hag
  obtain ⟨x0, hx0, hrr⟩ := forall₂_mem_right hev x hx
  have hid0 : x0.id = r.id := by
    rw [← same_rule_id_eq hrr.1]
    exact hid
  have hlp0 : x0.last_posted_date = r.last_posted_date := hag x0 hx0 hid0
  have hadv := hrr.2
  rw [hlp0] at hadv
  exact hadv

/-- C2 witness for the amended theorem: after the first step of the
fixture's run (the prefix posting 2023-10-05), the stored value strictly
advances past the initial `none`. -/
theorem last_posted_advances_within_run_witness :
    LpAdvanced c12_rule.last_posted_date (some ⟨2023, 10, 5⟩) :=
  last_posted_advances_within_run 1 ⟨2023, 10, 12⟩ c12_rule c12_db
    (by
      intro x hx hid
      rw [List.mem_singleton.mp hx])
    [⟨2023, 10, 5⟩] [⟨2023, 9, 5⟩] (by decide)
    { c12_rule with last_posted_date := some ⟨2023, 10, 5⟩ } (by decide) rfl
